import Mathlib

/-!
Shallow embedding of the storyboard generation pipeline
(`src/services/director.py`, `src/services/images.py`, `src/services/__init__.py`,
`src/services/video.py`, `src/services/context.py`, `src/gui/pipeline.py`).

Conventions used throughout:
* Python exceptions are modelled with `Except PyErr`; code that swallows
  exceptions and returns `None` is modelled with `Option`.
* Unbounded Python recursion (the deep response scan, the JSON reader,
  `str()` of nested values) is modelled with an explicit `fuel : Nat`
  parameter bounding the recursion depth; all universally quantified
  theorems below hold for every fuel value, and concrete evaluations pass
  a fuel that is visibly large enough.
* Machine floats appear only in `_frame_indices`; its arithmetic is modelled
  exactly over rationals represented as integer numerator/denominator
  pairs, with Python's round-half-to-even.
-/

/-- Python exception values, carrying the exception class and message. -/
inductive PyErr where
  | typeError (msg : String)
  | nameError (msg : String)
  | attributeError (msg : String)
  | keyError (msg : String)
  | valueError (msg : String)
  | jsonDecodeError (msg : String)
  | runtimeError (msg : String)
  | indexError (msg : String)
  deriving DecidableEq, Repr

/-- The whitespace characters stripped by Python's `str.strip()` and matched
by the regex class `\s` (ASCII range). -/
def pyWsChar (c : Char) : Bool :=
  c = ' ' || c = Char.ofNat 9 || c = Char.ofNat 10 ||
  c = Char.ofNat 13 || c = Char.ofNat 11 || c = Char.ofNat 12

/-- `str.strip()` on a character list. -/
def pyStripList (cs : List Char) : List Char :=
  ((cs.dropWhile pyWsChar).reverse.dropWhile pyWsChar).reverse

/-- Python's `str.strip()`. -/
def pyStrip (s : String) : String :=
  String.mk (pyStripList s.data)

/-- Helper for `str.splitlines()`: accumulates the current line (reversed). -/
def pySplitLinesAux : List Char → List Char → List String
  | [], acc => if acc.isEmpty then [] else [String.mk acc.reverse]
  | c :: cs, acc =>
    if c = Char.ofNat 10 then
      String.mk acc.reverse :: pySplitLinesAux cs []
    else if c = Char.ofNat 13 then
      match cs with
      | c2 :: cs2 =>
        if c2 = Char.ofNat 10 then String.mk acc.reverse :: pySplitLinesAux cs2 []
        else String.mk acc.reverse :: pySplitLinesAux (c2 :: cs2) []
      | [] => [String.mk acc.reverse]
    else pySplitLinesAux cs (c :: acc)

/-- Python's `str.splitlines()` (for the `\n`, `\r\n` and `\r` line ends). -/
def pySplitLines (s : String) : List String :=
  pySplitLinesAux s.data []

/-- Whether `needle` occurs at the head of `hay`. -/
def leadMatches : List Char → List Char → Bool
  | [], _ => true
  | _ :: _, [] => false
  | a :: as, b :: bs => a = b && leadMatches as bs

/-- Whether `needle` occurs anywhere in `hay` (Python's `in` on strings). -/
def containsSub (needle : List Char) : List Char → Bool
  | [] => leadMatches needle []
  | c :: cs => leadMatches needle (c :: cs) || containsSub needle cs

/-- Index of the first occurrence of `needle` in the list, offset by `i`
(Python's `str.find`, returning `none` for -1). -/
def indexOfSubAux (needle : List Char) : List Char → Nat → Option Nat
  | [], i => if leadMatches needle [] then some i else none
  | c :: cs, i =>
    if leadMatches needle (c :: cs) then some i else indexOfSubAux needle cs (i + 1)

/-- Index of the last occurrence of character `t` (Python's `str.rfind`). -/
def lastIndexOfChar (t : Char) (cs : List Char) : Option Nat :=
  (cs.foldl (fun st c =>
    (st.1 + 1, if c = t then some st.1 else st.2)) ((0 : Nat), (none : Option Nat))).2

/-- Decimal digits to a number; `none` if a non-digit appears. -/
def parseDigitsAux : List Char → Nat → Option Nat
  | [], acc => some acc
  | c :: cs, acc =>
    if c.isDigit then parseDigitsAux cs (acc * 10 + (c.toNat - 48)) else none

/-- The numeric value of an all-digit character list. -/
def natOfDigits (ds : List Char) : Nat :=
  (parseDigitsAux ds 0).getD 0

/-- Python's `int(s)` on a string: strips whitespace, accepts an optional
sign followed by digits, and raises `ValueError` otherwise (digit-group
underscores are not modelled). -/
def pyIntOfString (s : String) : Option Int :=
  match pyStripList s.data with
  | [] => none
  | c :: rest =>
    if c = '+' then
      match rest with
      | [] => none
      | _ => (parseDigitsAux rest 0).map Int.ofNat
    else if c = '-' then
      match rest with
      | [] => none
      | _ => (parseDigitsAux rest 0).map (fun n => -(Int.ofNat n))
    else (parseDigitsAux (c :: rest) 0).map Int.ofNat

/-- JSON values as produced by `json.loads` (JSON numbers are modelled as
integers; non-integer numerals are treated as undecodable input). -/
inductive JValue where
  | null
  | boolean (b : Bool)
  | num (n : Int)
  | str (s : String)
  | arr (xs : List JValue)
  | obj (fields : List (String × JValue))

/-- Dictionary lookup with Python semantics (on duplicate keys the last
binding wins, matching repeated assignment during `json.loads`). -/
def objMemberLast (fields : List (String × JValue)) (key : String) : Option JValue :=
  fields.foldl (fun acc kv => if kv.1 = key then some kv.2 else acc) none

/-- Python's `key in dict`. -/
def objHasKey (fields : List (String × JValue)) (key : String) : Bool :=
  fields.any (fun kv => kv.1 = key)

/-- Python truthiness of a JSON-shaped value. -/
def pyTruthy : JValue → Bool
  | JValue.null => false
  | JValue.boolean b => b
  | JValue.num n => n != 0
  | JValue.str s => s != ""
  | JValue.arr xs => !xs.isEmpty
  | JValue.obj fs => !fs.isEmpty

/-- Python's `int(x)` on a JSON-shaped value. -/
def pyInt : JValue → Except PyErr Int
  | JValue.num n => Except.ok n
  | JValue.boolean b => Except.ok (if b then 1 else 0)
  | JValue.str s =>
    match pyIntOfString s with
    | some n => Except.ok n
    | none => Except.error (PyErr.valueError "invalid literal for int() with base 10")
  | _ => Except.error (PyErr.typeError "int() argument must be a string or a number")

/-- Task selector for the fuelled recursion over nested `JValue`s. -/
inductive JTask where
  | val (v : JValue)
  | arrTail (xs : List JValue)
  | objTail (fields : List (String × JValue))

/-- Python `repr` of a string, approximated: single quotes with backslash
escaping of quote and backslash (control-character escapes are not needed
by any claim). -/
def pyStrQuote (s : String) : String :=
  let q := String.mk [Char.ofNat 39]
  q ++ String.mk (s.data.foldr
    (fun c acc =>
      if c = Char.ofNat 39 || c = Char.ofNat 92 then Char.ofNat 92 :: c :: acc
      else c :: acc) []) ++ q

/-- Python `repr` of a JSON-shaped value (fuelled recursion). -/
def pyReprAux : Nat → JTask → String
  | 0, _ => ""
  | fuel + 1, JTask.val v =>
    match v with
    | JValue.null => "None"
    | JValue.boolean b => if b then "True" else "False"
    | JValue.num n => toString n
    | JValue.str s => pyStrQuote s
    | JValue.arr xs => "[" ++ pyReprAux fuel (JTask.arrTail xs) ++ "]"
    | JValue.obj fs => "\x7b" ++ pyReprAux fuel (JTask.objTail fs) ++ "\x7d"
  | _ + 1, JTask.arrTail [] => ""
  | fuel + 1, JTask.arrTail [x] => pyReprAux fuel (JTask.val x)
  | fuel + 1, JTask.arrTail (x :: y :: xs) =>
    pyReprAux fuel (JTask.val x) ++ ", " ++ pyReprAux fuel (JTask.arrTail (y :: xs))
  | _ + 1, JTask.objTail [] => ""
  | fuel + 1, JTask.objTail [kv] =>
    pyStrQuote kv.1 ++ ": " ++ pyReprAux fuel (JTask.val kv.2)
  | fuel + 1, JTask.objTail (kv :: kv2 :: fs) =>
    pyStrQuote kv.1 ++ ": " ++ pyReprAux fuel (JTask.val kv.2) ++ ", " ++
      pyReprAux fuel (JTask.objTail (kv2 :: fs))

/-- Python's `str(x)` on a JSON-shaped value. -/
def pyStr (fuel : Nat) : JValue → String
  | JValue.str s => s
  | JValue.num n => toString n
  | JValue.boolean b => if b then "True" else "False"
  | JValue.null => "None"
  | JValue.arr xs => pyReprAux (fuel + 1) (JTask.val (JValue.arr xs))
  | JValue.obj fs => pyReprAux (fuel + 1) (JTask.val (JValue.obj fs))

/-- Reader for a JSON string body after the opening quote; returns the string
and the remaining characters (common escapes and `\uXXXX` handled). -/
def hexVal (c : Char) : Option Nat :=
  if c.isDigit then some (c.toNat - 48)
  else if 'a' ≤ c && c ≤ 'f' then some (c.toNat - 87)
  else if 'A' ≤ c && c ≤ 'F' then some (c.toNat - 55)
  else none

def jsonReadString : Nat → List Char → Option (String × List Char)
  | 0, _ => none
  | _ + 1, [] => none
  | fuel + 1, c :: cs =>
    if c = Char.ofNat 34 then some ("", cs)
    else if c = Char.ofNat 92 then
      match cs with
      | [] => none
      | e :: cs2 =>
        let esc : Option (Char × List Char) :=
          if e = Char.ofNat 34 then some (Char.ofNat 34, cs2)
          else if e = Char.ofNat 92 then some (Char.ofNat 92, cs2)
          else if e = '/' then some ( '/', cs2)
          else if e = 'b' then some (Char.ofNat 8, cs2)
          else if e = 'f' then some (Char.ofNat 12, cs2)
          else if e = 'n' then some (Char.ofNat 10, cs2)
          else if e = 'r' then some (Char.ofNat 13, cs2)
          else if e = 't' then some (Char.ofNat 9, cs2)
          else if e = 'u' then
            match cs2 with
            | h1 :: h2 :: h3 :: h4 :: cs3 =>
              match hexVal h1, hexVal h2, hexVal h3, hexVal h4 with
              | some a, some b, some c3, some d =>
                some (Char.ofNat (((a * 16 + b) * 16 + c3) * 16 + d), cs3)
              | _, _, _, _ => none
            | _ => none
          else none
        match esc with
        | some (ch, rest) =>
          (jsonReadString fuel rest).map (fun p => (String.mk [ch] ++ p.1, p.2))
        | none => none
    else (jsonReadString fuel cs).map (fun p => (String.mk [c] ++ p.1, p.2))

/-- Unsigned JSON integer literal (no leading zeros, per the JSON grammar). -/
def jsonReadUInt (cs : List Char) : Option (Nat × List Char) :=
  let p := cs.span (fun c => c.isDigit)
  match p.1 with
  | [] => none
  | [d] => some (natOfDigits [d], p.2)
  | d :: _ :: _ => if d = '0' then none else some (natOfDigits p.1, p.2)

/-- Signed JSON integer literal. -/
def jsonReadIntToken (cs : List Char) : Option (Int × List Char) :=
  match cs with
  | [] => none
  | c :: rest =>
    if c = '-' then (jsonReadUInt rest).map (fun p => (-(Int.ofNat p.1), p.2))
    else (jsonReadUInt (c :: rest)).map (fun p => (Int.ofNat p.1, p.2))

/-- JSON insignificant whitespace. -/
def jsonSkipWs : List Char → List Char
  | [] => []
  | c :: cs =>
    if c = ' ' || c = Char.ofNat 9 || c = Char.ofNat 10 || c = Char.ofNat 13 then
      jsonSkipWs cs
    else c :: cs

/-- Task selector for the fuelled JSON reader. -/
inductive JParseTask where
  | value
  | arrItems
  | objItems

/-- The JSON reader behind `json.loads`: parses one value / the items of an
array after at least one element / the members of an object after at least
one member, returning the value and the unconsumed characters. -/
def jsonParseAux : Nat → JParseTask → List Char → Option (JValue × List Char)
  | 0, _, _ => none
  | fuel + 1, JParseTask.value, cs0 =>
    let cs := jsonSkipWs cs0
    match cs with
    | [] => none
    | c :: rest =>
      if c = Char.ofNat 34 then
        (jsonReadString (rest.length + 1) rest).map (fun p => (JValue.str p.1, p.2))
      else if c = '[' then
        match jsonSkipWs rest with
        | c1 :: rest1 =>
          if c1 = ']' then some (JValue.arr [], rest1)
          else jsonParseAux fuel JParseTask.arrItems (c1 :: rest1)
        | [] => none
      else if c = Char.ofNat 123 then
        match jsonSkipWs rest with
        | c1 :: rest1 =>
          if c1 = Char.ofNat 125 then some (JValue.obj [], rest1)
          else jsonParseAux fuel JParseTask.objItems (c1 :: rest1)
        | [] => none
      else if leadMatches [ 't', 'r', 'u', 'e'] cs then
        some (JValue.boolean true, cs.drop 4)
      else if leadMatches [ 'f', 'a', 'l', 's', 'e'] cs then
        some (JValue.boolean false, cs.drop 5)
      else if leadMatches [ 'n', 'u', 'l', 'l'] cs then
        some (JValue.null, cs.drop 4)
      else
        (jsonReadIntToken cs).bind (fun p =>
          match p.2 with
          | d :: _ =>
            if d = '.' || d = 'e' || d = 'E' then none else some (JValue.num p.1, p.2)
          | [] => some (JValue.num p.1, []))
  | fuel + 1, JParseTask.arrItems, cs0 =>
    (jsonParseAux fuel JParseTask.value cs0).bind (fun p =>
      match jsonSkipWs p.2 with
      | c :: rest =>
        if c = ',' then
          (jsonParseAux fuel JParseTask.arrItems rest).bind (fun q =>
            match q.1 with
            | JValue.arr xs => some (JValue.arr (p.1 :: xs), q.2)
            | _ => none)
        else if c = ']' then some (JValue.arr [p.1], rest)
        else none
      | [] => none)
  | fuel + 1, JParseTask.objItems, cs0 =>
    match jsonSkipWs cs0 with
    | c :: rest =>
      if c = Char.ofNat 34 then
        (jsonReadString (rest.length + 1) rest).bind (fun kp =>
          match jsonSkipWs kp.2 with
          | c1 :: rest1 =>
            if c1 = ':' then
              (jsonParseAux fuel JParseTask.value rest1).bind (fun vp =>
                match jsonSkipWs vp.2 with
                | c2 :: rest2 =>
                  if c2 = ',' then
                    (jsonParseAux fuel JParseTask.objItems rest2).bind (fun q =>
                      match q.1 with
                      | JValue.obj fs => some (JValue.obj ((kp.1, vp.1) :: fs), q.2)
                      | _ => none)
                  else if c2 = Char.ofNat 125 then
                    some (JValue.obj [(kp.1, vp.1)], rest2)
                  else none
                | [] => none)
            else none
          | [] => none)
      else none
    | [] => none

/-- Python's `json.loads`: one JSON document with nothing but whitespace
after it, `none` for `json.JSONDecodeError`. -/
def jsonLoads (s : String) : Option JValue :=
  (jsonParseAux (3 * s.data.length + 16) JParseTask.value s.data).bind (fun p =>
    match jsonSkipWs p.2 with
    | [] => some p.1
    | _ :: _ => none)

/-- A storyboard shot (`src/types.py`). -/
structure Shot where
  id : Int
  text : String
  deriving DecidableEq, Repr

/-- Stable insertion of a shot into a list sorted by id (equal ids keep
their original relative order, as Python's stable `sorted` does). -/
def insertShotById (s : Shot) : List Shot → List Shot
  | [] => [s]
  | t :: ts => if t.id ≤ s.id then t :: insertShotById s ts else s :: t :: ts

/-- `sorted(shots, key=lambda s: s.id)`: a stable sort by id. -/
def sortShotsById (shots : List Shot) : List Shot :=
  shots.foldl (fun acc s => insertShotById s acc) []

/-- The bracket-depth scan in `parse_director_output`: starting at the first
square bracket, walk the characters counting depth; return the exclusive end
index of the first balanced span, or `none` when it never closes (the code
then leaves `json_end == json_start`). -/
def bracketScanAux : List Char → Nat → Int → Option Nat
  | [], _, _ => none
  | c :: cs, i, depth =>
    if c = '[' then bracketScanAux cs (i + 1) (depth + 1)
    else if c = ']' then
      if depth - 1 = 0 then some (i + 1) else bracketScanAux cs (i + 1) (depth - 1)
    else bracketScanAux cs (i + 1) depth

/-- The JSON-span heuristics of `parse_director_output`: the first balanced
`[...]` span, else the span from the first opening brace to one past the last
closing brace, else the whole (already stripped) text. -/
def extractJsonText (t : String) : String :=
  let cs := t.data
  match indexOfSubAux [ '['] cs 0 with
  | some js =>
    match bracketScanAux (cs.drop js) js 0 with
    | some je => if js < je then String.mk ((cs.drop js).take (je - js)) else t
    | none => t
  | none =>
    match indexOfSubAux [Char.ofNat 123] cs 0 with
    | some js =>
      let je := match lastIndexOfChar (Char.ofNat 125) cs with
        | some k => k + 1
        | none => 0
      if js < je then String.mk ((cs.drop js).take (je - js)) else t
    | none => t

/-- `shots_data` selection: a dict uses its `shots` member when present, else
itself; a list is used as is; anything else raises
`ValueError("Unexpected JSON structure")`. -/
def shotsDataOf (data : JValue) : Except PyErr JValue :=
  match data with
  | JValue.obj fs =>
    if objHasKey fs "shots" then Except.ok ((objMemberLast fs "shots").getD JValue.null)
    else Except.ok (JValue.obj fs)
  | JValue.arr xs => Except.ok (JValue.arr xs)
  | _ => Except.error (PyErr.valueError "Unexpected JSON structure")

/-- One shot object: id from `id` falling back to `shot_id` (default 0), text
from `description`/`text`/`desc` (default empty); both must be truthy, then
`int(shot_id)` may still raise. `none` means the item is skipped. -/
def shotFromItemFields (fuel : Nat) (fs : List (String × JValue)) :
    Except PyErr (Option Shot) :=
  let sid := (objMemberLast fs "id").getD
    ((objMemberLast fs "shot_id").getD (JValue.num 0))
  let desc := (objMemberLast fs "description").getD
    ((objMemberLast fs "text").getD ((objMemberLast fs "desc").getD (JValue.str "")))
  if pyTruthy sid && pyTruthy desc then
    match pyInt sid with
    | Except.ok n => Except.ok (some (Shot.mk n (pyStr fuel desc)))
    | Except.error e => Except.error e
  else Except.ok none

/-- The item loop over a `shots_data` list (non-dict items are skipped). -/
def shotsFromList (fuel : Nat) : List JValue → Except PyErr (List Shot)
  | [] => Except.ok []
  | item :: rest =>
    match item with
    | JValue.obj fs =>
      match shotFromItemFields fuel fs with
      | Except.error e => Except.error e
      | Except.ok none => shotsFromList fuel rest
      | Except.ok (some s) =>
        match shotsFromList fuel rest with
        | Except.error e => Except.error e
        | Except.ok l => Except.ok (s :: l)
    | _ => shotsFromList fuel rest

/-- Shot collection from `shots_data`: a list is iterated, a single dict is
treated as one shot, anything else contributes no shots. -/
def collectShots (fuel : Nat) (sd : JValue) : Except PyErr (List Shot) :=
  match sd with
  | JValue.arr items => shotsFromList fuel items
  | JValue.obj fs =>
    match shotFromItemFields fuel fs with
    | Except.error e => Except.error e
    | Except.ok none => Except.ok []
    | Except.ok (some s) => Except.ok [s]
  | _ => Except.ok []

/-- The structured (JSON) strategy of `parse_director_output`, i.e. its
`try` block on the stripped text: `none` models the caught
`JSONDecodeError/ValueError/KeyError/TypeError` that triggers the legacy
fallback. On success the shots are sorted by id and truncated to 5. -/
def structuredShots (t : String) : Option (List Shot) :=
  match jsonLoads (extractJsonText t) with
  | none => none
  | some data =>
    match shotsDataOf data with
    | Except.error _ => none
    | Except.ok sd =>
      match collectShots (t.data.length + 16) sd with
      | Except.error _ => none
      | Except.ok shots => some ((sortShotsById shots).take 5)

/-- The separator class `[:\-–]` of the legacy patterns. -/
def sepCD (c : Char) : Bool :=
  c = ':' || c = '-' || c = Char.ofNat 8211

/-- The literal `SHOT`/`Shot` alternative at the head of the input. -/
def matchShotLead (cs : List Char) : Option (List Char) :=
  if leadMatches [ 'S', 'H', 'O', 'T'] cs then some (cs.drop 4)
  else if leadMatches [ 'S', 'h', 'o', 't'] cs then some (cs.drop 4)
  else none

/-- Legacy pattern 1, `^(?:SHOT|Shot)\s*#?(\d+)\s*[:\-–]\s*(.+)$`. The
returned description is the raw remainder after the separator; it differs
from the regex group only by leading whitespace, which the caller's
`.strip()` removes. -/
def matchPat1 (cs : List Char) : Option (Int × String) :=
  match matchShotLead cs with
  | none => none
  | some cs1 =>
    let cs2 := cs1.dropWhile pyWsChar
    let cs3 := if cs2.head? = some '#' then cs2.drop 1 else cs2
    let p := cs3.span (fun c => c.isDigit)
    if p.1.isEmpty then none
    else
      match p.2.dropWhile pyWsChar with
      | c :: rest =>
        if sepCD c then
          if rest.isEmpty then none
          else some (Int.ofNat (natOfDigits p.1), String.mk rest)
        else none
      | [] => none

/-- Legacy pattern 2, `^(\d+)[\)\.:\-]\s*(.+)$`. -/
def matchPat2 (cs : List Char) : Option (Int × String) :=
  let p := cs.span (fun c => c.isDigit)
  if p.1.isEmpty then none
  else
    match p.2 with
    | c :: rest =>
      if c = ')' || c = '.' || c = ':' || c = '-' then
        if rest.isEmpty then none
        else some (Int.ofNat (natOfDigits p.1), String.mk rest)
      else none
    | [] => none

/-- The part of legacy pattern 3 after the bullet and following whitespace:
`(?:SHOT\s*)?(\d+)\s*[:\-–]\s*(.+)$`, with regex backtracking out of the
optional `SHOT` group when the digits then fail to match. -/
def matchPat3Core (cs1 : List Char) : Option (Int × String) :=
  let tryFrom : List Char → Option (Int × String) := fun cs2 =>
    let p := cs2.span (fun c => c.isDigit)
    if p.1.isEmpty then none
    else
      match p.2.dropWhile pyWsChar with
      | c :: rest =>
        if sepCD c then
          if rest.isEmpty then none
          else some (Int.ofNat (natOfDigits p.1), String.mk rest)
        else none
      | [] => none
  match (if leadMatches [ 'S', 'H', 'O', 'T'] cs1 then
          tryFrom ((cs1.drop 4).dropWhile pyWsChar)
        else none) with
  | some r => some r
  | none => tryFrom cs1

/-- Legacy pattern 3, `^[-•]\s*(?:SHOT\s*)?(\d+)\s*[:\-–]\s*(.+)$`. -/
def matchPat3 (cs : List Char) : Option (Int × String) :=
  match cs with
  | c :: rest =>
    if c = '-' || c = Char.ofNat 8226 then matchPat3Core (rest.dropWhile pyWsChar)
    else none
  | [] => none

/-- The per-line pattern loop with its `break` on the first match. -/
def matchLine (line : String) : Option (Int × String) :=
  match matchPat1 line.data with
  | some r => some r
  | none =>
    match matchPat2 line.data with
    | some r => some r
    | none => matchPat3 line.data

/-- The guarded append shared by both legacy phases: strip the description,
then append the shot only when the id is unseen and the description
non-empty (recording the id as seen). -/
def addShotIfNew (st : List Shot × List Int) (cand : Int × String) :
    List Shot × List Int :=
  let desc := pyStrip cand.2
  if st.2.contains cand.1 || desc = "" then st
  else (st.1 ++ [Shot.mk cand.1 desc], cand.1 :: st.2)

/-- One match of the loose blob regex
`(?:SHOT|Shot)\s*#?(\d+)\s*[:\-–]\s*([^\n]+)` at the head of the input,
returning id, description and the unconsumed characters. A match whose
description part would be pure trailing whitespace is treated as no match;
such a match contributes no shot (the stripped description is empty) and
consumes only whitespace. -/
def matchBlobAt (cs : List Char) : Option (Int × String × List Char) :=
  match matchShotLead cs with
  | none => none
  | some cs1 =>
    let cs2 := cs1.dropWhile pyWsChar
    let cs3 := if cs2.head? = some '#' then cs2.drop 1 else cs2
    let p := cs3.span (fun c => c.isDigit)
    if p.1.isEmpty then none
    else
      match p.2.dropWhile pyWsChar with
      | c :: rest =>
        if sepCD c then
          let r := (rest.dropWhile pyWsChar)
          match r with
          | [] => none
          | _ :: _ =>
            let q := r.span (fun c2 => c2 ≠ Char.ofNat 10)
            some (Int.ofNat (natOfDigits p.1), String.mk q.1, q.2)
        else none
      | [] => none

/-- `re.finditer` with the blob pattern: scan left to right, taking
non-overlapping matches. -/
def finditerShots : Nat → List Char → List (Int × String)
  | 0, _ => []
  | _ + 1, [] => []
  | fuel + 1, c :: cs =>
    match matchBlobAt (c :: cs) with
    | some (idx, desc, rest) => (idx, desc) :: finditerShots fuel rest
    | none => finditerShots fuel cs

/-- `_parse_director_output_legacy`: per-line pattern matching with id
deduplication, the single-blob rescue scan, then a stable sort by id
truncated to the first 5. -/
def parseDirectorOutputLegacy (text : String) : List Shot :=
  let raw_lines := (pySplitLines text).filterMap (fun l =>
    let s := pyStrip l
    if s = "" then none else some s)
  let st1 := (raw_lines.filterMap matchLine).foldl addShotIfNew ([], [])
  let st2 :=
    if st1.1.length < 5 && !raw_lines.isEmpty &&
        raw_lines.any (fun l =>
          containsSub [ 'S', 'H', 'O', 'T'] l.data ||
          containsSub [ 'S', 'h', 'o', 't'] l.data) then
      let blob := String.intercalate " \n " raw_lines
      (finditerShots (blob.data.length + 1) blob.data).foldl addShotIfNew st1
    else st1
  (sortShotsById st2.1).take 5

/-- The inner `while next_id in existing_ids` walk of the placeholder
synthesis; the fuel `existing.length + 1` always suffices. -/
def nextUnused (existing : List Int) : Int → Nat → Int
  | start, 0 => start
  | start, fuel + 1 =>
    if existing.contains start then nextUnused existing (start + 1) fuel else start

/-- The `while len(shots) < 5` placeholder loop. -/
def ensureFiveAux : Nat → List Shot → List Int → Int → List Shot
  | 0, shots, _, _ => shots
  | fuel + 1, shots, existing, next_id =>
    if shots.length < 5 then
      let nid := nextUnused existing next_id (existing.length + 1)
      ensureFiveAux fuel (shots ++ [Shot.mk nid ""]) (nid :: existing) nid
    else shots

/-- Placeholder synthesis: append empty-text shots with the lowest unused
positive ids until 5 shots exist. -/
def ensureFive (shots : List Shot) : List Shot :=
  ensureFiveAux 5 shots (shots.map Shot.id) 1

/-- `parse_director_output`: strip, try the structured JSON strategy, fall
back to the legacy textual strategy on any caught exception, then
normalize to exactly 5 shots. -/
def parse_director_output (text : String) : List Shot :=
  let t := pyStrip text
  let base :=
    match structuredShots t with
    | some s => s
    | none => parseDirectorOutputLegacy t
  ensureFive base

/-- Base64 alphabet. -/
def base64Table : List Char :=
  "ABCDEFGHIJKLMNOPQRSTUVWXYZabcdefghijklmnopqrstuvwxyz0123456789+/".data

/-- Character at index `n` of the base64 alphabet. -/
def b64CharAt (n : Nat) : Char :=
  (base64Table.drop n).headD 'A'

/-- Standard base64 encoding of a byte list. -/
def base64EncodeAux : List Nat → List Char
  | b1 :: b2 :: b3 :: rest =>
    let x := (b1 % 256) * 65536 + (b2 % 256) * 256 + (b3 % 256)
    b64CharAt (x / 262144 % 64) :: b64CharAt (x / 4096 % 64) ::
      b64CharAt (x / 64 % 64) :: b64CharAt (x % 64) :: base64EncodeAux rest
  | [b1, b2] =>
    let x := (b1 % 256) * 65536 + (b2 % 256) * 256
    [b64CharAt (x / 262144 % 64), b64CharAt (x / 4096 % 64), b64CharAt (x / 64 % 64), '=']
  | [b1] =>
    let x := (b1 % 256) * 65536
    [b64CharAt (x / 262144 % 64), b64CharAt (x / 4096 % 64), '=', '=']
  | [] => []

/-- `storage.bytes_to_data_url`. -/
def bytes_to_data_url (data : List Nat) (mime : String) : String :=
  "data:" ++ mime ++ ";base64," ++ String.mk (base64EncodeAux data)

/-- An HTTP response to a `requests.get` image fetch: raw bytes plus the
optional `content-type` header. -/
structure HttpResp where
  content : List Nat
  contentTypeHdr : Option String
  deriving Repr

/-- `resp.headers.get("content-type", "image/png")`. -/
def respMime (r : HttpResp) : String :=
  r.contentTypeHdr.getD "image/png"

/-- The outcome of `requests.get` on a URL: `none` models a raised network
exception. The code re-encodes fetched bytes as a data URL. -/
def fetchToDataUrl (fetch : String → Option HttpResp) (u : String) : Option String :=
  match fetch u with
  | some r => some (bytes_to_data_url r.content (respMime r))
  | none => none

/-- `s.startswith(...)` for a literal. -/
def strStarts (s : String) (lead : List Char) : Bool :=
  leadMatches lead s.data

/-- Equality of a JSON-shaped value with a string literal (`==` in Python). -/
def jStrEq (v : JValue) (s : String) : Bool :=
  match v with
  | JValue.str t => t = s
  | _ => false

/-- The token `"data:image/"` searched for inside longer strings. -/
def dataImageToken : List Char :=
  "data:image/".data

/-- The delimiters the code probes with `find` to bound an embedded token. -/
def tokenSepChars : List Char :=
  [Char.ofNat 10, ' ', ')', ']', Char.ofNat 34, Char.ofNat 39]

/-- The embedded-token branch of `_find_data_or_http_image_in_obj` on a
string: locate `data:image/` and slice up to the earliest of the delimiter
occurrences at or after it (equivalently, take non-delimiter characters). -/
def extractEmbeddedToken (s : String) : Option String :=
  match indexOfSubAux dataImageToken s.data 0 with
  | none => none
  | some i =>
    some (String.mk ((s.data.drop i).takeWhile (fun c => !(tokenSepChars.contains c))))

/-- Task selector for the fuelled deep scan. -/
inductive FindTask where
  | one (v : JValue)
  | many (vs : List JValue)

/-- The string case of `_find_data_or_http_image_in_obj`: a direct
`data:image` prefix, a remote-URL prefix, or an embedded token. -/
def findInString (t : String) : Option String :=
  if strStarts t "data:image".data then some t
  else if strStarts t "http://".data || strStarts t "https://".data then some t
  else extractEmbeddedToken t

/-- The explicit-content-item branch of `_find_data_or_http_image_in_obj`
(`obj.get("type") == "image_url"`). `some res` means the activation finishes
with `res`; `none` means fall through to the later checks. `some none` is
the `AttributeError` of `.get("url")` on a non-dict `image_url` member,
caught by the activation's own `except` which returns `None`. -/
def typedItemResult (fs : List (String × JValue)) : Option (Option String) :=
  if jStrEq ((objMemberLast fs "type").getD JValue.null) "image_url" then
    match (objMemberLast fs "image_url").getD (JValue.obj []) with
    | JValue.obj fs2 =>
      match (objMemberLast fs2 "url").getD JValue.null with
      | JValue.str u =>
        if strStarts u "data:image".data then some (some u)
        else if strStarts u "http://".data || strStarts u "https://".data then
          some (some u)
        else
          match extractEmbeddedToken u with
          | some tok => some (some tok)
          | none => none
      | _ => none
    | _ => some none
  else none

/-- The `url`/`image_url` nesting branch of
`_find_data_or_http_image_in_obj`: `url = obj.get("url") or
obj.get("image_url")`, then a direct `data:image/` string or a dict with a
`url` member. -/
def nestedUrlResult (fs : List (String × JValue)) : Option String :=
  let urlMember := (objMemberLast fs "url").getD JValue.null
  let url2 := if pyTruthy urlMember then urlMember
    else (objMemberLast fs "image_url").getD JValue.null
  match url2 with
  | JValue.str u => if strStarts u "data:image/".data then some u else none
  | JValue.obj fs2 =>
    match (objMemberLast fs2 "url").getD JValue.null with
    | JValue.str inner =>
      if strStarts inner "data:image/".data then some inner else none
    | _ => none
  | _ => none

/-- `_find_data_or_http_image_in_obj`. Each Python activation has its own
`try/except` returning `None`, whose only reachable raise site is the one
inside `typedItemResult`; that case ends the current activation with `none`
while enclosing activations continue. The `many` task is the `for` loop
over list elements / dict values, with Python's `if found:` truthiness
skipping empty strings. -/
def findDataOrHttpAux : Nat → FindTask → Option String
  | 0, _ => none
  | fuel + 1, FindTask.one v =>
    match v with
    | JValue.str s => findInString s
    | JValue.obj fs =>
      match typedItemResult fs with
      | some res => res
      | none =>
        match nestedUrlResult fs with
        | some u => some u
        | none => findDataOrHttpAux fuel (FindTask.many (fs.map Prod.snd))
    | JValue.arr xs => findDataOrHttpAux fuel (FindTask.many xs)
    | _ => none
  | _ + 1, FindTask.many [] => none
  | fuel + 1, FindTask.many (x :: xs) =>
    match findDataOrHttpAux fuel (FindTask.one x) with
    | some s => if s = "" then findDataOrHttpAux fuel (FindTask.many xs) else some s
    | none => findDataOrHttpAux fuel (FindTask.many xs)

/-- Wrapper with the function's own name. -/
def findDataOrHttpImageInObj (fuel : Nat) (v : JValue) : Option String :=
  findDataOrHttpAux fuel (FindTask.one v)

/-- `obj[0]`: Python subscripting with integer index 0. -/
def pySubZero : JValue → Except PyErr JValue
  | JValue.arr [] => Except.error (PyErr.indexError "list index out of range")
  | JValue.arr (x :: _) => Except.ok x
  | JValue.str s =>
    match s.data with
    | [] => Except.error (PyErr.indexError "string index out of range")
    | c :: _ => Except.ok (JValue.str (String.mk [c]))
  | JValue.obj _ => Except.error (PyErr.keyError "0")
  | _ => Except.error (PyErr.typeError "object is not subscriptable")

/-- `obj.get(key, default)`: raises `AttributeError` on non-dicts. -/
def pyDictGet (v : JValue) (key : String) (dflt : JValue) : Except PyErr JValue :=
  match v with
  | JValue.obj fs => Except.ok ((objMemberLast fs key).getD dflt)
  | _ => Except.error (PyErr.attributeError "object has no attribute get")

/-- Whether a string is a remote URL reference. -/
def isHttpUrl (s : String) : Bool :=
  strStarts s "http://".data || strStarts s "https://".data

/-- Resolution of a candidate found by the deep scan: a remote URL is
fetched and re-encoded (network failure yielding `None` via the
`try/except`), anything else is returned as is. -/
def resolveCandidate (fetch : String → Option HttpResp) (cand : String) : Option String :=
  if isHttpUrl cand then fetchToDataUrl fetch cand else some cand

/-- The same resolution applied to an optional deep-scan result
(`deep2` in the code): `None` stays `None`. -/
def resolveDeep (fetch : String → Option HttpResp) (deep : Option String) : Option String :=
  match deep with
  | some d => resolveCandidate fetch d
  | none => none

/-- The provider-specific `images` array step of the extraction's dict path
(`msg.get("images")` inspection). `ok (some u)` is a `return`, `ok none`
falls through to the content checks; the reference to the undefined name
`_find_data_image_in_obj` raises `NameError`. A fetch failure here is
`except Exception: pass`, falling through to the embedded-token check. -/
def imagesArrayStep (fetch : String → Option HttpResp) (images : JValue) :
    Except PyErr (Option String) :=
  match images with
  | JValue.arr (first :: _) =>
    let urlE : Except PyErr (Option String) :=
      match first with
      | JValue.obj ffs =>
        match (objMemberLast ffs "image_url").getD (JValue.obj []) with
        | JValue.obj fs2 =>
          match (objMemberLast fs2 "url").getD JValue.null with
          | JValue.str u => Except.ok (some u)
          | _ => Except.ok none
        | _ => Except.error (PyErr.attributeError "object has no attribute get")
      | _ => Except.ok none
    match urlE with
    | Except.error e => Except.error e
    | Except.ok none => Except.ok none
    | Except.ok (some u) =>
      if strStarts u "data:".data then Except.ok (some u)
      else
        let fetched : Option String :=
          if isHttpUrl u then fetchToDataUrl fetch u else none
        match fetched with
        | some du => Except.ok (some du)
        | none =>
          if containsSub dataImageToken u.data then
            Except.error (PyErr.nameError "name _find_data_image_in_obj is not defined")
          else Except.ok none
  | _ => Except.ok none

/-- `extract_image_data_url_from_response`, dict path. A plain value that is
neither an SDK object (no `JValue` has a `choices` attribute) nor a dict
returns `None`. `fetch` models `requests.get`; `fuel` bounds the recursion
depth of the deep scans. -/
def extract_image_data_url_from_response (fuel : Nat)
    (fetch : String → Option HttpResp) (resp : JValue) :
    Except PyErr (Option String) :=
  match resp with
  | JValue.obj fs =>
    let choices := (objMemberLast fs "choices").getD (JValue.arr [])
    if !pyTruthy choices then Except.ok none
    else
      match pySubZero choices with
      | Except.error e => Except.error e
      | Except.ok choice0 =>
        match pyDictGet choice0 "message" (JValue.obj []) with
        | Except.error e => Except.error e
        | Except.ok msg =>
          match pyDictGet msg "images" JValue.null with
          | Except.error e => Except.error e
          | Except.ok images =>
            match imagesArrayStep fetch images with
            | Except.error e => Except.error e
            | Except.ok (some u) => Except.ok (some u)
            | Except.ok none =>
              match pyDictGet msg "content" JValue.null with
              | Except.error e => Except.error e
              | Except.ok content =>
                match findDataOrHttpImageInObj fuel content with
                | some cand =>
                  if cand = "" then
                    Except.ok (resolveDeep fetch
                      (findDataOrHttpImageInObj fuel (JValue.obj fs)))
                  else Except.ok (resolveCandidate fetch cand)
                | none =>
                  Except.ok (resolveDeep fetch
                    (findDataOrHttpImageInObj fuel (JValue.obj fs)))
  | _ => Except.ok none

/-- The attempt loop of `with_backoff` (`src/services/__init__.py`). `f` is
the wrapped zero-argument callable, indexed by the attempt number so that a
deterministic per-attempt outcome can be supplied; `fuel` is the number of
retries still available (`retries - attempt`); the result carries the number
of invocations made and the list of sleep delays in seconds. -/
def backoffAux (f : Nat → Except PyErr α) (base_delay : ℚ) :
    Nat → Nat → Except PyErr α × Nat × List ℚ
  | attempt, 0 =>
    (match f attempt with
     | Except.ok a => (Except.ok a, 1, [])
     | Except.error e => (Except.error e, 1, []))
  | attempt, fuel + 1 =>
    match f attempt with
    | Except.ok a => (Except.ok a, 1, [])
    | Except.error _ =>
      let t := backoffAux f base_delay (attempt + 1) fuel
      (t.1, t.2.1 + 1, base_delay * 2 ^ attempt :: t.2.2)

/-- `with_backoff(func, retries=..., base_delay=...)`: up to `retries + 1`
invocations, sleeping `base_delay * 2**attempt` between consecutive ones,
re-raising the last exception on exhaustion. -/
def with_backoff (f : Nat → Except PyErr α) (retries : Nat) (base_delay : ℚ) :
    Except PyErr α × Nat × List ℚ :=
  backoffAux f base_delay 0 retries

/-- Run an optional logging callback (`if on_log: on_log(msg)`); the callback
itself may raise. -/
def runLog (on_log : Option (String → Except PyErr Unit)) (msg : String) :
    Except PyErr Unit :=
  match on_log with
  | some f => f msg
  | none => Except.ok ()

/-- The transport stage of `generate_image` (`src/services/images.py`): the
OpenAI-client call under `with_backoff`, with an `except` fallback that
logs and retries via the raw-HTTP transport under `with_backoff`. -/
def acquireImageResponse (tclient thttp : Nat → Except PyErr JValue)
    (on_log : Option (String → Except PyErr Unit)) : Except PyErr JValue :=
  match (with_backoff tclient 2 (4/5)).1 with
  | Except.ok r => Except.ok r
  | Except.error _ =>
    match runLog on_log "Images: OpenAI client failed; falling back to HTTP requests" with
    | Except.error e => Except.error e
    | Except.ok _ => (with_backoff thttp 2 (4/5)).1

/-- `generate_image` (`src/services/images.py`): the leading log call, the
transport acquisition above, then payload extraction; a falsy extraction
result raises `RuntimeError("No image returned by provider")`. The final
log call is wrapped in `try/except: pass` and cannot affect the result. -/
def generate_image (tclient thttp : Nat → Except PyErr JValue)
    (fetch : String → Option HttpResp)
    (on_log : Option (String → Except PyErr Unit)) (fuel : Nat) :
    Except PyErr String :=
  match runLog on_log "Images: calling image model" with
  | Except.error e => Except.error e
  | Except.ok _ =>
    match acquireImageResponse tclient thttp on_log with
    | Except.error e => Except.error e
    | Except.ok resp =>
      match extract_image_data_url_from_response fuel fetch resp with
      | Except.error e => Except.error e
      | Except.ok none => Except.error (PyErr.runtimeError "No image returned by provider")
      | Except.ok (some d) =>
        if d = "" then Except.error (PyErr.runtimeError "No image returned by provider")
        else Except.ok d

/-- `GenerationResult` (`src/types.py`); `created_at` is the wall-clock
timestamp, modelled as a monotone tick counter. -/
structure GenerationResult where
  shot_id : Int
  image_data_url : String
  created_at : Nat
  deriving DecidableEq, Repr

/-- One `on_progress` delivery of `generate_images_concurrently`. -/
inductive ProgressEvent where
  | started (shot_id : Int)
  | succeeded (shot_id : Int) (url : String)
  | failed (shot_id : Int) (err : PyErr)
  deriving DecidableEq, Repr

/-- The shot id an event is tagged with. -/
def ProgressEvent.sid : ProgressEvent → Int
  | ProgressEvent.started i => i
  | ProgressEvent.succeeded i _ => i
  | ProgressEvent.failed i _ => i

/-- The batch code passes the three-argument `on_progress` callback to
`generate_image` as its one-argument `on_log`; viewed as a one-argument
callable, any invocation of it raises `TypeError` for the two missing
positional arguments. -/
def progressAsOnLog : String → Except PyErr Unit :=
  fun _ => Except.error
    (PyErr.typeError "on_progress missing 2 required positional arguments")

/-- Observable state accumulated by `generate_images_concurrently`: the
result dict in insertion order, the `on_progress` deliveries, the shot ids
whose task body ran (instrumentation for "was this shot attempted"), and
the timestamp counter. -/
structure BatchState where
  results : List (Int × GenerationResult)
  events : List ProgressEvent
  attempted : List Int
  clock : Nat
  deriving Repr

/-- The body of the per-shot `task`, preceded by the
`if not text.strip(): continue` skip. The transports are indexed by the
shot text, as the request payload is built from it. -/
def batchStep (tclient thttp : String → Nat → Except PyErr JValue)
    (fetch : String → Option HttpResp) (hasProgress : Bool) (fuel : Nat)
    (st : BatchState) (shot : Int × String) : BatchState :=
  if pyStrip shot.2 = "" then st
  else
    let ev0 := if hasProgress then st.events ++ [ProgressEvent.started shot.1] else st.events
    let on_log := if hasProgress then some progressAsOnLog else none
    match generate_image (tclient shot.2) (thttp shot.2) fetch on_log fuel with
    | Except.ok url =>
      { results := st.results ++ [(shot.1, GenerationResult.mk shot.1 url st.clock)]
        events := if hasProgress then ev0 ++ [ProgressEvent.succeeded shot.1 url] else ev0
        attempted := st.attempted ++ [shot.1]
        clock := st.clock + 1 }
    | Except.error e =>
      { results := st.results
        events := if hasProgress then ev0 ++ [ProgressEvent.failed shot.1 e] else ev0
        attempted := st.attempted ++ [shot.1]
        clock := st.clock }

/-- `generate_images_concurrently`: despite the name, one sequential pass
over the insertion-ordered `shot_id_to_text` dict (modelled as an
association list with distinct keys), isolating per-shot failures. -/
def generate_images_concurrently (tclient thttp : String → Nat → Except PyErr JValue)
    (fetch : String → Option HttpResp) (hasProgress : Bool) (fuel : Nat)
    (shot_id_to_text : List (Int × String)) : BatchState :=
  shot_id_to_text.foldl (batchStep tclient thttp fetch hasProgress fuel)
    (BatchState.mk [] [] [] 0)

/-- The two interchangeable transport strategies. -/
inductive TransportKind where
  | openaiClient
  | rawHttp
  deriving DecidableEq, Repr

/-- One `with_backoff` stage of the escalation ladder, recording one trace
entry per transport invocation actually made. -/
def stageTrace (call : String → TransportKind → Nat → Except PyErr α)
    (model : String) (k : TransportKind) (retries : Nat) (base : ℚ) :
    Except PyErr α × List (String × TransportKind) :=
  let t := with_backoff (call model k) retries base
  (t.1, List.replicate t.2.1 (model, k))

/-- The shared escalation skeleton of `fetch_context_paragraph` and
`fetch_director_shots`: `with_backoff` around the OpenAI client call with
the primary model, on exhaustion `with_backoff` around the raw-HTTP call
with the primary model, and on failure of both the same pair again with the
vision fallback model, propagating the final error. -/
def fetch_with_escalation (primary fallback : String) (retries : Nat) (base : ℚ)
    (call : String → TransportKind → Nat → Except PyErr α) :
    Except PyErr α × List (String × TransportKind) :=
  let s1 := stageTrace call primary TransportKind.openaiClient retries base
  match s1.1 with
  | Except.ok a => (Except.ok a, s1.2)
  | Except.error _ =>
    let s2 := stageTrace call primary TransportKind.rawHttp retries base
    match s2.1 with
    | Except.ok a => (Except.ok a, s1.2 ++ s2.2)
    | Except.error _ =>
      let s3 := stageTrace call fallback TransportKind.openaiClient retries base
      match s3.1 with
      | Except.ok a => (Except.ok a, s1.2 ++ s2.2 ++ s3.2)
      | Except.error _ =>
        let s4 := stageTrace call fallback TransportKind.rawHttp retries base
        (s4.1, s1.2 ++ s2.2 ++ s3.2 ++ s4.2)

/-- Round-half-to-even (Python's `round`) of the exact rational `a / b`,
for a positive denominator `b`; the floor is `a / b` by Euclidean division
and the fractional part is compared with one half via `2*(a % b)` against
`b`. `_frame_indices` computes `(i / (n + 1)) * total_frames` in floating
point; the model evaluates the same expression exactly. -/
def pyRoundRat (a b : Int) : Int :=
  let f := a / b
  let r := a % b
  if 2 * r < b then f else if b < 2 * r then f + 1 else if f % 2 = 0 then f else f + 1

/-- `_frame_indices` (`src/services/video.py`): clamp `n` below by 1, then
for `i = 1..n` take `round((i / (n + 1)) * total_frames)` clamped into
`[0, total_frames - 1]`. -/
def _frame_indices (total_frames : Int) (n0 : Int) : List Int :=
  let n := max 1 n0
  (List.range n.toNat).map (fun i =>
    max 0 (min (total_frames - 1) (pyRoundRat ((Int.ofNat i + 1) * total_frames) (n + 1))))

/-- The parameter list of `fetch_director_shots` (`src/services/director.py`,
its `def` line). -/
def fetch_director_shots_params : List String :=
  ["client", "cfg", "middle_frame_data_url", "context_paragraph", "on_log"]

/-- Python call binding: a keyword argument naming no parameter raises
`TypeError` before the callee body runs. -/
def pyCallBindErr (fname : String) (params : List String) (kwargs : List String) :
    Option PyErr :=
  match kwargs.find? (fun k => !params.contains k) with
  | some k =>
    some (PyErr.typeError (fname ++ " got an unexpected keyword argument " ++ k))
  | none => none

/-- `Pipeline.generate_shots_from_context` (`src/gui/pipeline.py`): calls
`fetch_director_shots(self.client, self.cfg, middle_frame_data_url,
context_text, on_log=self.on_log, shot_count=shot_count)` inside a
`try/except` that logs and re-raises. `fetchResult` stands for what the
director call would produce were the binding to succeed; the middle frame,
context text and shot count do not influence the binding check. -/
def generate_shots_from_context (fetchResult : Except PyErr (List Shot))
    (_middle_frame_data_url _context_text : String) (_shot_count : Nat) :
    Except PyErr (List Shot) :=
  match pyCallBindErr "fetch_director_shots()" fetch_director_shots_params
      ["on_log", "shot_count"] with
  | some e => Except.error e
  | none => fetchResult

/-- The structured round-trip input of the shot-list claim. -/
def c3Input : String :=
  "[\x7b\"id\":1,\"description\":\"A\"\x7d,\x7b\"id\":3,\"description\":\"B\"\x7d]"

/-- The same input with a repeated id. -/
def c4Input : String :=
  "[\x7b\"id\":1,\"description\":\"A\"\x7d,\x7b\"id\":1,\"description\":\"B\"\x7d]"

/-- A response whose `images[0].image_url.url` is a string that neither is a
data URL nor a remote URL but contains an embedded `data:image/` token: the
input that steers extraction onto its undefined-name branch. -/
def c5Resp : JValue :=
  JValue.obj [("choices", JValue.arr [JValue.obj [("message", JValue.obj
    [("images", JValue.arr [JValue.obj [("image_url", JValue.obj
      [("url", JValue.str "see data:image/png;base64,AA")])]])])]])]

/-- A well-formed image response whose message content is an inline data
URL carrying the shot text. -/
def c2Resp (text : String) : JValue :=
  JValue.obj [("choices", JValue.arr [JValue.obj [("message", JValue.obj
    [("content", JValue.str ("data:image/png;base64," ++ text))])]])]

/-- A transport for the batch scenario: every call for shot text "B" raises,
all other calls succeed. -/
def c2Transport (text : String) (_attempt : Nat) : Except PyErr JValue :=
  if text = "B" then Except.error (PyErr.runtimeError "connection reset")
  else Except.ok (c2Resp text)

/-- The batch run of the scenario: three non-empty shots, shot 2 failing on
every transport call, no progress callback installed. -/
def c2Out : BatchState :=
  generate_images_concurrently c2Transport c2Transport (fun _ => none) false 8
    [(1, "A"), (2, "B"), (3, "C")]

/-!  Theorems. -/

/-- C1: `Pipeline.generate_shots_from_context` passes `shot_count=` to
`fetch_director_shots`, whose parameter list has no such name, so every call
raises `TypeError` at the binding step (re-raised by the method's `except`)
before any director request is made — for all inputs and regardless of what
the director call would have produced. -/
theorem generate_shots_from_context_always_type_error :
    ∀ (fetchResult : Except PyErr (List Shot)) (mf ctx : String) (sc : Nat),
      generate_shots_from_context fetchResult mf ctx sc =
        Except.error (PyErr.typeError
          "fetch_director_shots() got an unexpected keyword argument shot_count") :=
  fun _ _ _ _ => rfl

/-- C3 counterexample: on the round-trip input the parser returns the two
recovered shots followed by the three synthesized placeholders, i.e. ids in
the order `[1, 3, 2, 4, 5]` — not a list sorted ascending by id as the
claim states. -/
theorem parse_director_round_trip_not_sorted :
    parse_director_output c3Input =
      [Shot.mk 1 "A", Shot.mk 3 "B", Shot.mk 2 "", Shot.mk 4 "", Shot.mk 5 ""] ∧
    ¬ List.Sorted (· ≤ ·) ((parse_director_output c3Input).map Shot.id) :=
  ⟨by decide, by decide⟩

/-- C3 amended: for the input
`[{"id":1,"description":"A"},{"id":3,"description":"B"}]` the parser returns
exactly 5 shots: the recovered shots sorted ascending by id (1 with text
"A", then 3 with text "B"), followed by the three synthesized empty-text
placeholders with the lowest unused positive ids 2, 4 and 5, appended after
the sorted recovered shots. -/
theorem parse_director_round_trip :
    parse_director_output c3Input =
      [Shot.mk 1 "A", Shot.mk 3 "B", Shot.mk 2 "", Shot.mk 4 "", Shot.mk 5 ""] := by
  decide

/-- C4 counterexample: a structured input that repeats id 1 yields two shots
with the same id — the structured JSON path performs no deduplication and
the synthesis loop only avoids the ids already present. -/
theorem parse_director_duplicate_ids :
    parse_director_output c4Input =
      [Shot.mk 1 "A", Shot.mk 1 "B", Shot.mk 2 "", Shot.mk 3 "", Shot.mk 4 ""] ∧
    ¬ ((parse_director_output c4Input).map Shot.id).Nodup :=
  ⟨by decide, by decide⟩

/-- C5: image extraction is not total. On a response whose
`images[0].image_url.url` is a string containing an embedded `data:image/`
token (without being a data URL or remote URL itself), the dict path calls
the undefined helper `_find_data_image_in_obj` and raises `NameError`
instead of returning an image or no-image. -/
theorem extract_image_raises_name_error :
    extract_image_data_url_from_response 6 (fun _ => none) c5Resp =
      Except.error (PyErr.nameError "name _find_data_image_in_obj is not defined") :=
  rfl

/-- C6 counterexample: with `maxRetries = 2` and a transport whose every
invocation fails, the escalation ladder of
`fetch_context_paragraph`/`fetch_director_shots` makes 12 transport
invocations — each of the two strategies retried `maxRetries + 1` times for
each of the two models — exceeding the claimed bound
`2 * (maxRetries + 1) = 6`. -/
theorem escalation_exceeds_claimed_bound :
    ((fetch_with_escalation "google/gemini-2.5-flash-image-preview"
        "qwen/qwen2.5-vl-72b-instruct" 2 (4/5)
        (fun _ _ _ => (Except.error (PyErr.runtimeError "connection reset") :
          Except PyErr Unit))).2).length = 12 ∧
    ¬ (((fetch_with_escalation "google/gemini-2.5-flash-image-preview"
        "qwen/qwen2.5-vl-72b-instruct" 2 (4/5)
        (fun _ _ _ => (Except.error (PyErr.runtimeError "connection reset") :
          Except PyErr Unit))).2).length ≤ 2 * (2 + 1)) :=
  ⟨by decide, by decide⟩

/-- C2 counterexample: in the 3-shot batch where every transport call for
shot 2 raises and shots 1 and 3 succeed, the returned result map has no
entry at all — in particular no error entry — recorded against shot 2. -/
theorem batch_no_error_entry_for_failed_shot :
    (2 : Int) ∉ c2Out.results.map Prod.fst ∧
    c2Out.results.map Prod.fst = [1, 3] :=
  ⟨by decide, by decide⟩

/-- C2 amended: in that scenario the returned map contains exactly the
success entries for shots 1 and 3 (shot 2's failure produces no entry in
the returned map and is delivered only to the optional progress callback,
absent here), and all three shots were attempted in the given order with no
early abort. -/
theorem batch_partial_failure_isolated :
    c2Out.results =
      [(1, GenerationResult.mk 1 "data:image/png;base64,A" 0),
       (3, GenerationResult.mk 3 "data:image/png;base64,C" 1)] ∧
    (2 : Int) ∉ c2Out.results.map Prod.fst ∧
    c2Out.attempted = [1, 2, 3] :=
  ⟨by decide, by decide, by decide⟩

theorem backoffAux_calls_le {α : Type} (f : Nat → Except PyErr α) (base : ℚ)
    (attempt fuel : Nat) : (backoffAux f base attempt fuel).2.1 ≤ fuel + 1 := by
  induction fuel generalizing attempt with
  | zero => cases hf : f attempt <;> simp [backoffAux, hf]
  | succ n ih =>
    cases hf : f attempt with
    | ok a => simp [backoffAux, hf]
    | error e =>
      simp only [backoffAux, hf]
      have := ih (attempt + 1)
      omega

theorem backoffAux_delays {α : Type} (f : Nat → Except PyErr α) (base : ℚ)
    (attempt fuel : Nat) :
    (backoffAux f base attempt fuel).2.2 =
      (List.range (backoffAux f base attempt fuel).2.2.length).map
        (fun j => base * 2 ^ (attempt + j)) := by
  induction fuel generalizing attempt with
  | zero => cases hf : f attempt <;> simp [backoffAux, hf]
  | succ n ih =>
    cases hf : f attempt with
    | ok a => simp [backoffAux, hf]
    | error e =>
      simp only [backoffAux, hf, List.length_cons, List.range_succ_eq_map,
        List.map_cons, List.map_map]
      simp only [Nat.add_zero]
      congr 1
      rw [ih (attempt + 1)]
      simp only [List.length_map, List.length_range]
      apply List.map_congr_left
      intro j _
      simp only [Function.comp_apply]
      rw [show attempt + (j + 1) = attempt + 1 + j by omega]

theorem backoffAux_error_last {α : Type} (f : Nat → Except PyErr α) (base : ℚ)
    (attempt fuel : Nat) (e : PyErr) :
    (backoffAux f base attempt fuel).1 = Except.error e →
      f (attempt + fuel) = Except.error e := by
  induction fuel generalizing attempt with
  | zero =>
    cases hf : f attempt with
    | ok a => simp [backoffAux, hf]
    | error e2 =>
      simp only [backoffAux, hf]
      intro h
      have : e2 = e := by simpa using h
      subst this
      exact hf
  | succ n ih =>
    cases hf : f attempt with
    | ok a => simp [backoffAux, hf]
    | error e2 =>
      simp only [backoffAux, hf]
      intro h
      have := ih (attempt + 1) h
      rw [show attempt + (n + 1) = attempt + 1 + n by omega]
      exact this

theorem backoffAux_calls_on_error {α : Type} (f : Nat → Except PyErr α) (base : ℚ)
    (attempt fuel : Nat) (e : PyErr) :
    (backoffAux f base attempt fuel).1 = Except.error e →
      (backoffAux f base attempt fuel).2.1 = fuel + 1 := by
  induction fuel generalizing attempt with
  | zero => cases hf : f attempt <;> simp [backoffAux, hf]
  | succ n ih =>
    cases hf : f attempt with
    | ok a => simp [backoffAux, hf]
    | error e2 =>
      simp only [backoffAux, hf]
      intro h
      have := ih (attempt + 1) h
      omega

/-- C8: in `with_backoff`, the sleep delay after the k-th failed attempt
(0-indexed) is `base_delay * 2^k` (the delay list is pointwise
`base * 2^j`), the wrapped function is invoked at most `retries + 1` times,
and on exhaustion the error re-raised is the one produced by the last
attempt; with `retries=2` and `base_delay=0.8` the successive delays are
exactly 0.8 and 1.6 seconds. -/
theorem with_backoff_spec :
    (∀ {α : Type} (f : Nat → Except PyErr α) (retries : Nat) (base : ℚ),
      (with_backoff f retries base).2.1 ≤ retries + 1 ∧
      (with_backoff f retries base).2.2 =
        (List.range (with_backoff f retries base).2.2.length).map (fun j => base * 2 ^ j) ∧
      (∀ e, (with_backoff f retries base).1 = Except.error e → f retries = Except.error e)) ∧
    (with_backoff (fun _ => (Except.error (PyErr.runtimeError "connection reset") :
        Except PyErr Unit)) 2 (4/5)).2.2 = [4/5, 8/5] := by
  constructor
  · intro α f retries base
    refine ⟨backoffAux_calls_le f base 0 retries, ?_, ?_⟩
    · have := backoffAux_delays f base 0 retries
      simpa [with_backoff] using this
    · intro e h
      have := backoffAux_error_last f base 0 retries e h
      simpa [with_backoff] using this
  · norm_num [with_backoff, backoffAux]

/-- Witness for the retry-wrapper properties at the concrete always-failing
callable with retries 2. -/
theorem with_backoff_spec_witness :
    (with_backoff (fun _ => (Except.error (PyErr.runtimeError "connection reset") :
        Except PyErr Unit)) 2 (4/5)).2.1 ≤ 2 + 1 ∧
    (fun _ => (Except.error (PyErr.runtimeError "connection reset") :
        Except PyErr Unit)) 2 = Except.error (PyErr.runtimeError "connection reset") :=
  ⟨(with_backoff_spec.1 (fun _ => Except.error (PyErr.runtimeError "connection reset"))
      2 (4/5)).1,
   (with_backoff_spec.1 (fun _ => Except.error (PyErr.runtimeError "connection reset"))
      2 (4/5)).2.2 (PyErr.runtimeError "connection reset") rfl⟩

theorem replicate_fst {m : String} {k : TransportKind} {n : Nat} :
    ∀ e ∈ List.replicate n (m, k), (e : String × TransportKind).1 = m := by
  intro e he
  rw [List.eq_of_mem_replicate he]

theorem with_backoff_calls_le {α : Type} (f : Nat → Except PyErr α) (retries : Nat)
    (base : ℚ) : (with_backoff f retries base).2.1 ≤ retries + 1 :=
  backoffAux_calls_le f base 0 retries

theorem with_backoff_calls_on_error {α : Type} (f : Nat → Except PyErr α) (retries : Nat)
    (base : ℚ) (e : PyErr) (h : (with_backoff f retries base).1 = Except.error e) :
    (with_backoff f retries base).2.1 = retries + 1 :=
  backoffAux_calls_on_error f base 0 retries e h

/-- C6 amended: the escalation wrapper issues at most `4*(maxRetries+1)`
transport invocations before propagating failure (`maxRetries+1` per
transport strategy, two strategies per model), and no invocation with the
fallback model occurs before all `2*(maxRetries+1)` primary-model attempts
have failed: the trace splits into a primary-model part followed by a
fallback-model part, and the latter is non-empty only when the former has
exactly `2*(maxRetries+1)` entries. -/
theorem escalation_bound_and_order {α : Type}
    (primary fallback : String) (retries : Nat) (base : ℚ)
    (call : String → TransportKind → Nat → Except PyErr α) :
    (fetch_with_escalation primary fallback retries base call).2.length ≤ 4 * (retries + 1) ∧
    ∃ tp tf,
      (fetch_with_escalation primary fallback retries base call).2 = tp ++ tf ∧
      (∀ e ∈ tp, e.1 = primary) ∧ (∀ e ∈ tf, e.1 = fallback) ∧
      (tf ≠ [] → tp.length = 2 * (retries + 1)) := by
  have le1 := with_backoff_calls_le (call primary TransportKind.openaiClient) retries base
  have le2 := with_backoff_calls_le (call primary TransportKind.rawHttp) retries base
  have le3 := with_backoff_calls_le (call fallback TransportKind.openaiClient) retries base
  have le4 := with_backoff_calls_le (call fallback TransportKind.rawHttp) retries base
  simp only [fetch_with_escalation, stageTrace]
  cases h1 : (with_backoff (call primary TransportKind.openaiClient) retries base).1 with
  | ok a =>
    refine ⟨by simp; omega, ?_⟩
    refine ⟨_, [], (List.append_nil _).symm, replicate_fst, by simp, by simp⟩
  | error e1 =>
    cases h2 : (with_backoff (call primary TransportKind.rawHttp) retries base).1 with
    | ok a =>
      refine ⟨by simp; omega, ?_⟩
      refine ⟨_, [], (List.append_nil _).symm, ?_, by simp, by simp⟩
      intro e he
      rcases List.mem_append.mp he with h | h
      · exact replicate_fst e h
      · exact replicate_fst e h
    | error e2 =>
      have c1 := with_backoff_calls_on_error _ _ _ _ h1
      have c2 := with_backoff_calls_on_error _ _ _ _ h2
      cases h3 : (with_backoff (call fallback TransportKind.openaiClient) retries base).1 with
      | ok a =>
        refine ⟨by simp; omega, ?_⟩
        refine ⟨_, _, rfl, ?_, replicate_fst, ?_⟩
        · intro e he
          rcases List.mem_append.mp he with h | h
          · exact replicate_fst e h
          · exact replicate_fst e h
        · intro _
          simp [c1, c2]
          ring
      | error e3 =>
        refine ⟨by simp; omega, ?_⟩
        refine ⟨List.replicate (with_backoff (call primary TransportKind.openaiClient) retries base).2.1
            (primary, TransportKind.openaiClient) ++
          List.replicate (with_backoff (call primary TransportKind.rawHttp) retries base).2.1
            (primary, TransportKind.rawHttp),
          List.replicate (with_backoff (call fallback TransportKind.openaiClient) retries base).2.1
            (fallback, TransportKind.openaiClient) ++
          List.replicate (with_backoff (call fallback TransportKind.rawHttp) retries base).2.1
            (fallback, TransportKind.rawHttp),
          by simp [List.append_assoc], ?_, ?_, ?_⟩
        · intro e he
          rcases List.mem_append.mp he with h | h
          · exact replicate_fst e h
          · exact replicate_fst e h
        · intro e he
          rcases List.mem_append.mp he with h | h
          · exact replicate_fst e h
          · exact replicate_fst e h
        · intro _
          simp [c1, c2]
          ring

/-- Witness for the amended escalation bound at a concrete failing
transport. -/
theorem escalation_bound_and_order_witness :
    (fetch_with_escalation "google/gemini-2.5-flash-image-preview"
        "qwen/qwen2.5-vl-72b-instruct" 2 (4/5)
        (fun _ _ _ => (Except.error (PyErr.runtimeError "connection reset") :
          Except PyErr Unit))).2.length ≤ 4 * (2 + 1) :=
  (escalation_bound_and_order "google/gemini-2.5-flash-image-preview"
    "qwen/qwen2.5-vl-72b-instruct" 2 (4/5)
    (fun _ _ _ => Except.error (PyErr.runtimeError "connection reset"))).1

theorem pyRoundRat_bounds (a b : Int) :
    a / b ≤ pyRoundRat a b ∧ pyRoundRat a b ≤ a / b + 1 := by
  simp only [pyRoundRat]
  split_ifs <;> omega

theorem pyRoundRat_mono {a a' : Int} (b : Int) (hb : 0 < b) (h : a ≤ a') :
    pyRoundRat a b ≤ pyRoundRat a' b := by
  have hdiv : a / b ≤ a' / b := Int.ediv_le_ediv hb h
  rcases eq_or_lt_of_le hdiv with heq | hlt
  · have e1 : b * (a / b) + a % b = a := Int.ediv_add_emod a b
    have e2 : b * (a / b) + a' % b = a' := by rw [heq]; exact Int.ediv_add_emod a' b
    have hr : a % b ≤ a' % b := by linarith
    simp only [pyRoundRat, ← heq]
    split_ifs <;> omega
  · have b1 := pyRoundRat_bounds a b
    have b2 := pyRoundRat_bounds a' b
    omega

theorem pyRoundRat_near (a b : Int) (hb : 0 < b) :
    2 * |a - pyRoundRat a b * b| ≤ b := by
  have e1 : b * (a / b) + a % b = a := Int.ediv_add_emod a b
  have h0 : 0 ≤ a % b := Int.emod_nonneg a (by omega)
  have h1 : a % b < b := Int.emod_lt_of_pos a hb
  have key1 : a - (a / b) * b = a % b := by linarith [e1]
  have key2 : a - (a / b + 1) * b = a % b - b := by ring_nf; ring_nf at key1; omega
  simp only [pyRoundRat]
  split_ifs with hc1 hc2 hc3
  · rw [key1, abs_of_nonneg h0]; omega
  · rw [key2, abs_of_nonpos (by omega)]; omega
  · rw [key1, abs_of_nonneg h0]; omega
  · rw [key2, abs_of_nonpos (by omega)]; omega

/-- C9: for every `n ≥ 1` and `totalFrames ≥ 1`, the sampler's index
sequence is monotonically non-decreasing, every index lies in
`[0, totalFrames-1]`, there are exactly `n` indices, index `i` equals
`round((i/(n+1)) * totalFrames)` clamped into that range, and the
unclamped rounded value is within half a unit of the exact rational
position (rounding ties to even, as Python's `round` does). -/
theorem frame_indices_spec (total n : Int) (hn : 1 ≤ n) (ht : 1 ≤ total) :
    List.Pairwise (· ≤ ·) (_frame_indices total n) ∧
    (∀ x ∈ _frame_indices total n, 0 ≤ x ∧ x ≤ total - 1) ∧
    (_frame_indices total n).length = n.toNat ∧
    (∀ i (h : i < (_frame_indices total n).length),
      (_frame_indices total n).get ⟨i, h⟩ =
        max 0 (min (total - 1) (pyRoundRat ((Int.ofNat i + 1) * total) (n + 1)))) ∧
    (∀ i : Nat, 2 * |(Int.ofNat i + 1) * total -
        pyRoundRat ((Int.ofNat i + 1) * total) (n + 1) * (n + 1)| ≤ n + 1) := by
  have hmax : max 1 n = n := max_eq_right hn
  have hb : (0:ℤ) < n + 1 := by omega
  refine ⟨?_, ?_, ?_, ?_, ?_⟩
  · simp only [_frame_indices, hmax]
    rw [List.pairwise_map]
    refine (List.pairwise_lt_range _).imp ?_
    intro i j hij
    have harg : (Int.ofNat i + 1) * total ≤ (Int.ofNat j + 1) * total := by
      have hle : (Int.ofNat i + 1) ≤ (Int.ofNat j + 1) := by
        simp only [Int.ofNat_eq_coe]
        omega
      exact mul_le_mul_of_nonneg_right hle (by omega)
    exact max_le_max le_rfl (min_le_min le_rfl (pyRoundRat_mono (n + 1) hb harg))
  · intro x hx
    simp only [_frame_indices, hmax, List.mem_map] at hx
    obtain ⟨i, _, rfl⟩ := hx
    exact ⟨le_max_left _ _, max_le (by omega) (min_le_left _ _)⟩
  · simp [_frame_indices, hmax]
  · intro i h
    simp [_frame_indices, hmax, List.get_eq_getElem, List.getElem_map, List.getElem_range]
  · intro i
    exact pyRoundRat_near _ _ hb

/-- Witness for the sampler properties at `totalFrames = 10`, `n = 2`. -/
theorem frame_indices_spec_witness :
    List.Pairwise (· ≤ ·) (_frame_indices 10 2) ∧ (_frame_indices 10 2).length = (2:ℤ).toNat :=
  ⟨(frame_indices_spec 10 2 (by decide) (by decide)).1,
   (frame_indices_spec 10 2 (by decide) (by decide)).2.2.1⟩

theorem batchStep_skip {tclient thttp fetch hasProgress fuel st} {p : Int × String}
    (h : pyStrip p.2 = "") : batchStep tclient thttp fetch hasProgress fuel st p = st := by
  simp [batchStep, h]

theorem batchStep_attempted_mem {tclient thttp fetch hasProgress fuel st}
    {p : Int × String} {x : Int}
    (hx : x ∈ (batchStep tclient thttp fetch hasProgress fuel st p).attempted) :
    x ∈ st.attempted ∨ x = p.1 := by
  unfold batchStep at hx
  by_cases h : pyStrip p.2 = ""
  · rw [if_pos h] at hx
    exact Or.inl hx
  · rw [if_neg h] at hx
    simp only [] at hx
    cases hg : generate_image (tclient p.2) (thttp p.2) fetch
        (if hasProgress then some progressAsOnLog else none) fuel with
    | ok u =>
      rw [hg] at hx
      simp only [List.mem_append, List.mem_singleton] at hx
      exact hx
    | error e =>
      rw [hg] at hx
      simp only [List.mem_append, List.mem_singleton] at hx
      exact hx

theorem batchStep_resultkey_mem {tclient thttp fetch hasProgress fuel st}
    {p : Int × String} {x : Int}
    (hx : x ∈ (batchStep tclient thttp fetch hasProgress fuel st p).results.map Prod.fst) :
    x ∈ st.results.map Prod.fst ∨ x = p.1 := by
  unfold batchStep at hx
  by_cases h : pyStrip p.2 = ""
  · rw [if_pos h] at hx
    exact Or.inl hx
  · rw [if_neg h] at hx
    simp only [] at hx
    cases hg : generate_image (tclient p.2) (thttp p.2) fetch
        (if hasProgress then some progressAsOnLog else none) fuel with
    | ok u =>
      rw [hg] at hx
      simp only [List.map_append, List.mem_append, List.map_cons, List.map_nil,
        List.mem_singleton] at hx
      exact hx
    | error e =>
      rw [hg] at hx
      exact Or.inl hx

theorem batchStep_event_mem {tclient thttp fetch hasProgress fuel st}
    {p : Int × String} {ev : ProgressEvent}
    (hx : ev ∈ (batchStep tclient thttp fetch hasProgress fuel st p).events) :
    ev ∈ st.events ∨ ev.sid = p.1 := by
  unfold batchStep at hx
  by_cases h : pyStrip p.2 = ""
  · rw [if_pos h] at hx
    exact Or.inl hx
  · rw [if_neg h] at hx
    simp only [] at hx
    cases hg : generate_image (tclient p.2) (thttp p.2) fetch
        (if hasProgress then some progressAsOnLog else none) fuel with
    | ok u =>
      rw [hg] at hx
      by_cases hp : hasProgress
      · simp only [hp, if_true, List.mem_append, List.mem_singleton] at hx
        rcases hx with (hx | hx) | hx
        · exact Or.inl hx
        · subst hx; exact Or.inr rfl
        · subst hx; exact Or.inr rfl
      · simp only [hp, if_false] at hx
        exact Or.inl hx
    | error e =>
      rw [hg] at hx
      by_cases hp : hasProgress
      · simp only [hp, if_true, List.mem_append, List.mem_singleton] at hx
        rcases hx with (hx | hx) | hx
        · exact Or.inl hx
        · subst hx; exact Or.inr rfl
        · subst hx; exact Or.inr rfl
      · simp only [hp, if_false] at hx
        exact Or.inl hx

theorem batch_fold_untouched (tclient thttp : String → Nat → Except PyErr JValue)
    (fetch : String → Option HttpResp) (hasProgress : Bool) (fuel : Nat) (sid : Int)
    (shots : List (Int × String))
    (hsh : ∀ p ∈ shots, p.1 = sid → pyStrip p.2 = "") :
    ∀ st : BatchState,
      sid ∉ st.attempted → sid ∉ st.results.map Prod.fst →
      (∀ ev ∈ st.events, ev.sid ≠ sid) →
      sid ∉ (shots.foldl (batchStep tclient thttp fetch hasProgress fuel) st).attempted ∧
      sid ∉ (shots.foldl (batchStep tclient thttp fetch hasProgress fuel) st).results.map
        Prod.fst ∧
      (∀ ev ∈ (shots.foldl (batchStep tclient thttp fetch hasProgress fuel) st).events,
        ev.sid ≠ sid) := by
  induction shots with
  | nil => intro st h1 h2 h3; exact ⟨h1, h2, h3⟩
  | cons p rest ih =>
    intro st h1 h2 h3
    have hrest : ∀ q ∈ rest, q.1 = sid → pyStrip q.2 = "" :=
      fun q hq => hsh q (List.mem_cons_of_mem _ hq)
    by_cases hid : p.1 = sid
    · have hblank : pyStrip p.2 = "" := hsh p (List.mem_cons_self _ _) hid
      rw [List.foldl_cons, batchStep_skip hblank]
      exact ih hrest st h1 h2 h3
    · rw [List.foldl_cons]
      refine ih hrest _ ?_ ?_ ?_
      · intro hmem
        rcases batchStep_attempted_mem hmem with hmem | hmem
        · exact h1 hmem
        · exact hid hmem.symm
      · intro hmem
        rcases batchStep_resultkey_mem hmem with hmem | hmem
        · exact h2 hmem
        · exact hid hmem.symm
      · intro ev hev
        rcases batchStep_event_mem hev with hev | hev
        · exact h3 ev hev
        · intro hc; exact hid (hev.symm.trans hc ▸ rfl)

/-- C10: in batch generation, a shot whose text strips to the empty string
is skipped entirely: its task is never started (so the image model is never
invoked for it), no result entry appears under its id, and no progress
event carries its id — regardless of the transports, the fetch behaviour,
whether a progress callback is installed, and the other shots. -/
theorem batch_skips_blank_shots (tclient thttp : String → Nat → Except PyErr JValue)
    (fetch : String → Option HttpResp) (hasProgress : Bool) (fuel : Nat)
    (shots : List (Int × String)) (sid : Int) (text : String)
    (hnd : (shots.map Prod.fst).Nodup) (hmem : (sid, text) ∈ shots)
    (hblank : pyStrip text = "") :
    sid ∉ (generate_images_concurrently tclient thttp fetch hasProgress fuel shots).attempted ∧
    sid ∉ (generate_images_concurrently tclient thttp fetch hasProgress fuel
      shots).results.map Prod.fst ∧
    (∀ ev ∈ (generate_images_concurrently tclient thttp fetch hasProgress fuel shots).events,
      ev.sid ≠ sid) := by
  have hall : ∀ p ∈ shots, p.1 = sid → pyStrip p.2 = "" := by
    intro p hp hpid
    have hpe : p = (sid, text) := by
      exact List.inj_on_of_nodup_map hnd hp hmem (by simpa using hpid)
    rw [hpe]
    exact hblank
  exact batch_fold_untouched tclient thttp fetch hasProgress fuel sid shots hall
    (BatchState.mk [] [] [] 0) (by simp) (by simp) (by simp)

/-- Witness for the blank-shot skip on a concrete two-shot batch. -/
theorem batch_skips_blank_shots_witness :
    (2 : Int) ∉ (generate_images_concurrently
      (fun _ _ => Except.error (PyErr.runtimeError "connection reset"))
      (fun _ _ => Except.error (PyErr.runtimeError "connection reset"))
      (fun _ => none) true 4 [(1, "a"), (2, " ")]).attempted ∧
    (2 : Int) ∉ (generate_images_concurrently
      (fun _ _ => Except.error (PyErr.runtimeError "connection reset"))
      (fun _ _ => Except.error (PyErr.runtimeError "connection reset"))
      (fun _ => none) true 4 [(1, "a"), (2, " ")]).results.map Prod.fst :=
  ⟨(batch_skips_blank_shots
      (fun _ _ => Except.error (PyErr.runtimeError "connection reset"))
      (fun _ _ => Except.error (PyErr.runtimeError "connection reset"))
      (fun _ => none) true 4 [(1, "a"), (2, " ")] 2 " "
      (by decide) (by decide) (by decide)).1,
   (batch_skips_blank_shots
      (fun _ _ => Except.error (PyErr.runtimeError "connection reset"))
      (fun _ _ => Except.error (PyErr.runtimeError "connection reset"))
      (fun _ => none) true 4 [(1, "a"), (2, " ")] 2 " "
      (by decide) (by decide) (by decide)).2.1⟩

theorem insertShotById_perm (s : Shot) :
    ∀ l : List Shot, List.Perm (insertShotById s l) (s :: l) := by
  intro l
  induction l with
  | nil => exact List.Perm.refl _
  | cons t ts ih =>
    unfold insertShotById
    by_cases h : t.id ≤ s.id
    · rw [if_pos h]
      exact (ih.cons t).trans (List.Perm.swap s t ts)
    · rw [if_neg h]

theorem sortFold_perm :
    ∀ (l acc : List Shot),
      List.Perm (l.foldl (fun acc s => insertShotById s acc) acc) (acc ++ l) := by
  intro l
  induction l with
  | nil => intro acc; simp
  | cons x xs ih =>
    intro acc
    rw [List.foldl_cons]
    refine (ih (insertShotById x acc)).trans ?_
    refine (((insertShotById_perm x acc).append_right xs).trans ?_)
    exact List.perm_middle.symm

theorem sortShotsById_perm (l : List Shot) : List.Perm (sortShotsById l) l := by
  simpa using sortFold_perm l []

theorem sorted_take_nodup (shots : List Shot) (h : (shots.map Shot.id).Nodup) :
    (((sortShotsById shots).take 5).map Shot.id).Nodup := by
  have hnd : ((sortShotsById shots).map Shot.id).Nodup :=
    (((sortShotsById_perm shots).map Shot.id).nodup_iff).mpr h
  rw [List.map_take]
  exact hnd.sublist (List.take_sublist _ _)

theorem addShotIfNew_inv (st : List Shot × List Int) (cand : Int × String)
    (h1 : (st.1.map Shot.id).Nodup) (h2 : ∀ s ∈ st.1, s.id ∈ st.2) :
    ((addShotIfNew st cand).1.map Shot.id).Nodup ∧
      ∀ s ∈ (addShotIfNew st cand).1, s.id ∈ (addShotIfNew st cand).2 := by
  unfold addShotIfNew
  simp only []
  by_cases hg : (st.2.contains cand.1 || decide (pyStrip cand.2 = "")) = true
  · rw [if_pos hg]
    exact ⟨h1, h2⟩
  · rw [if_neg hg]
    have hnotin : cand.1 ∉ st.2 := by
      intro hmem
      apply hg
      simp [hmem]
    have hnotid : cand.1 ∉ st.1.map Shot.id := by
      intro hmem
      obtain ⟨s, hs, hsid⟩ := List.mem_map.mp hmem
      exact hnotin (hsid ▸ h2 s hs)
    constructor
    · rw [List.map_append, List.nodup_append]
      refine ⟨h1, by simp, ?_⟩
      intro x hx
      simp only [List.map_cons, List.map_nil, List.mem_singleton]
      intro hxx
      subst hxx
      exact hnotid hx
    · intro s hs
      rcases List.mem_append.mp hs with hs | hs
      · exact List.mem_cons_of_mem _ (h2 s hs)
      · simp only [List.mem_singleton] at hs
        subst hs
        exact List.mem_cons_self _ _

theorem foldAdd_inv (cands : List (Int × String)) :
    ∀ st : List Shot × List Int,
      ((st.1.map Shot.id).Nodup ∧ ∀ s ∈ st.1, s.id ∈ st.2) →
      (((cands.foldl addShotIfNew st).1.map Shot.id).Nodup ∧
        ∀ s ∈ (cands.foldl addShotIfNew st).1, s.id ∈ (cands.foldl addShotIfNew st).2) := by
  induction cands with
  | nil => intro st h; exact h
  | cons c rest ih =>
    intro st h
    rw [List.foldl_cons]
    exact ih _ (addShotIfNew_inv st c h.1 h.2)

theorem countP_ge_lt (l : List Int) (s : Int) (hs : s ∈ l) :
    l.countP (fun x => decide (s + 1 ≤ x)) < l.countP (fun x => decide (s ≤ x)) := by
  induction l with
  | nil => cases hs
  | cons a t ih =>
    have hmono : t.countP (fun x => decide (s + 1 ≤ x)) ≤
        t.countP (fun x => decide (s ≤ x)) := by
      apply List.countP_mono_left
      intro x _ hx
      simp only [decide_eq_true_eq] at hx ⊢
      omega
    rcases List.mem_cons.mp hs with rfl | ha
    · have c1 : ¬ (s + 1 ≤ s) := by omega
      simp only [List.countP_cons, decide_eq_true_eq]
      rw [if_neg c1, if_pos (le_refl s)]
      omega
    · have ht := ih ha
      simp only [List.countP_cons, decide_eq_true_eq]
      by_cases hsa : s + 1 ≤ a
      · have hsb : s ≤ a := by omega
        rw [if_pos hsa, if_pos hsb]
        omega
      · rw [if_neg hsa]
        by_cases hsb : s ≤ a
        · rw [if_pos hsb]
          omega
        · rw [if_neg hsb]
          omega
theorem nextUnused_not_mem (existing : List Int) :
    ∀ (fuel : Nat) (start : Int),
      existing.countP (fun x => decide (start ≤ x)) < fuel →
      nextUnused existing start fuel ∉ existing := by
  intro fuel
  induction fuel with
  | zero => intro start h; omega
  | succ n ih =>
    intro start h
    unfold nextUnused
    by_cases hmem : existing.contains start
    · rw [if_pos hmem]
      apply ih
      have hsmem : start ∈ existing := by simpa using hmem
      have := countP_ge_lt existing start hsmem
      omega
    · rw [if_neg hmem]
      intro hc
      exact hmem (by simpa using hc)

theorem nextUnused_fresh (existing : List Int) (start : Int) :
    nextUnused existing start (existing.length + 1) ∉ existing := by
  apply nextUnused_not_mem
  have := existing.countP_le_length (fun x => decide (start ≤ x))
  omega

theorem ensureFiveAux_nodup :
    ∀ (fuel : Nat) (shots : List Shot) (existing : List Int),
      (shots.map Shot.id).Nodup → (∀ s ∈ shots, s.id ∈ existing) → ∀ nid0 : Int,
      ((ensureFiveAux fuel shots existing nid0).map Shot.id).Nodup := by
  intro fuel
  induction fuel with
  | zero => intro shots existing h1 _ _; exact h1
  | succ n ih =>
    intro shots existing h1 h2 nid0
    unfold ensureFiveAux
    by_cases hlen : shots.length < 5
    · rw [if_pos hlen]
      have hfresh := nextUnused_fresh existing nid0
      apply ih
      · rw [List.map_append, List.nodup_append]
        refine ⟨h1, by simp, ?_⟩
        intro x hx
        simp only [List.map_cons, List.map_nil, List.mem_singleton]
        intro hxx
        subst hxx
        obtain ⟨s, hs, hsid⟩ := List.mem_map.mp hx
        exact hfresh (hsid ▸ h2 s hs)
      · intro s hs
        rcases List.mem_append.mp hs with hs | hs
        · exact List.mem_cons_of_mem _ (h2 s hs)
        · simp only [List.mem_singleton] at hs
          subst hs
          exact List.mem_cons_self _ _
    · rw [if_neg hlen]
      exact h1

theorem ensureFive_nodup (shots : List Shot) (h : (shots.map Shot.id).Nodup) :
    ((ensureFive shots).map Shot.id).Nodup := by
  unfold ensureFive
  exact ensureFiveAux_nodup 5 shots (shots.map Shot.id) h
    (fun s hs => List.mem_map_of_mem _ hs) 1

theorem legacy_ids_nodup (text : String) :
    ((parseDirectorOutputLegacy text).map Shot.id).Nodup := by
  unfold parseDirectorOutputLegacy
  simp only []
  apply sorted_take_nodup
  split_ifs with h
  · exact (foldAdd_inv _ _ (foldAdd_inv _ _ ⟨by simp, by simp⟩)).1
  · exact (foldAdd_inv _ _ ⟨by simp, by simp⟩).1

/-- C4 amended: the shot-list parser's textual fallback path never returns
two shots with the same id (for every input text on which the structured
strategy fails), and placeholder synthesis never introduces a duplicate id
(for every recovered list with distinct ids); only the structured JSON path
can propagate duplicate ids, when they are present in the JSON itself. -/
theorem parse_director_dedup_guarantees :
    (∀ text : String, structuredShots (pyStrip text) = none →
      ((parse_director_output text).map Shot.id).Nodup) ∧
    (∀ shots : List Shot, (shots.map Shot.id).Nodup →
      ((ensureFive shots).map Shot.id).Nodup) := by
  constructor
  · intro text h
    unfold parse_director_output
    simp only [h]
    exact ensureFive_nodup _ (legacy_ids_nodup _)
  · exact ensureFive_nodup

/-- Witness for the deduplication guarantees at concrete inputs. -/
theorem parse_director_dedup_guarantees_witness :
    ((parse_director_output "SHOT 1: wide shot").map Shot.id).Nodup ∧
    ((ensureFive [Shot.mk 1 "A"]).map Shot.id).Nodup :=
  ⟨parse_director_dedup_guarantees.1 "SHOT 1: wide shot" (by decide),
   parse_director_dedup_guarantees.2 [Shot.mk 1 "A"] (by decide)⟩

theorem ne_empty_of_data_ne_nil {s : String} (h : s.data ≠ []) : s ≠ "" := by
  intro he
  subst he
  exact h rfl

theorem leadMatches_head {x : Char} {xs cs : List Char}
    (h : leadMatches (x :: xs) cs = true) : ∃ cs2, cs = x :: cs2 := by
  cases cs with
  | nil => simp [leadMatches] at h
  | cons c cs2 =>
    simp only [leadMatches, Bool.and_eq_true, decide_eq_true_eq] at h
    exact ⟨cs2, by rw [h.1]⟩

theorem strStarts_ne_empty {t : String} {c : Char} {rest : List Char}
    (h : strStarts t (c :: rest) = true) : t ≠ "" := by
  intro he
  subst he
  obtain ⟨cs2, hcs⟩ := leadMatches_head h
  simp at hcs

theorem indexOfSubAux_found (needle : List Char) :
    ∀ (cs : List Char) (k i : Nat), indexOfSubAux needle cs k = some i →
      k ≤ i ∧ leadMatches needle (cs.drop (i - k)) = true := by
  intro cs
  induction cs with
  | nil =>
    intro k i h
    unfold indexOfSubAux at h
    by_cases hl : leadMatches needle [] = true
    · rw [if_pos hl] at h
      obtain rfl : k = i := by simpa using h
      simpa using hl
    · rw [if_neg hl] at h
      cases h
  | cons c cs2 ih =>
    intro k i h
    unfold indexOfSubAux at h
    by_cases hl : leadMatches needle (c :: cs2) = true
    · rw [if_pos hl] at h
      obtain rfl : k = i := by simpa using h
      simpa using hl
    · rw [if_neg hl] at h
      obtain ⟨hk, hm⟩ := ih (k + 1) i h
      refine ⟨by omega, ?_⟩
      have hik : i - k = (i - (k + 1)) + 1 := by omega
      rw [hik]
      simpa using hm

theorem extractEmbeddedToken_ne_empty {s t : String}
    (h : extractEmbeddedToken s = some t) : t ≠ "" := by
  unfold extractEmbeddedToken at h
  cases hidx : indexOfSubAux dataImageToken s.data 0 with
  | none => rw [hidx] at h; cases h
  | some i =>
    rw [hidx] at h
    injection h with h
    subst h
    obtain ⟨_, hm⟩ := indexOfSubAux_found dataImageToken s.data 0 i hidx
    simp only [Nat.sub_zero] at hm
    have hd : dataImageToken = 'd' :: "ata:image/".data := rfl
    rw [hd] at hm
    obtain ⟨cs2, hcs⟩ := leadMatches_head hm
    apply ne_empty_of_data_ne_nil
    rw [hcs, List.takeWhile_cons, if_pos (by decide)]
    simp

theorem findInString_ne_empty {t r : String} (h : findInString t = some r) : r ≠ "" := by
  unfold findInString at h
  split_ifs at h with h1 h2
  · injection h with h
    subst h
    exact strStarts_ne_empty h1
  · injection h with h
    subst h
    simp only [Bool.or_eq_true] at h2
    rcases h2 with hx | hx
    · exact strStarts_ne_empty hx
    · exact strStarts_ne_empty hx
  · exact extractEmbeddedToken_ne_empty h

theorem typedItemResult_ne_empty {fs : List (String × JValue)} {u : String}
    (h : typedItemResult fs = some (some u)) : u ≠ "" := by
  unfold typedItemResult at h
  by_cases h0 : jStrEq ((objMemberLast fs "type").getD JValue.null) "image_url"
  case neg => rw [if_neg h0] at h; cases h
  case pos =>
  rw [if_pos h0] at h
  cases him : (objMemberLast fs "image_url").getD (JValue.obj []) with
  | obj fs2 =>
    rw [him] at h
    simp only [] at h
    cases hurl : (objMemberLast fs2 "url").getD JValue.null with
    | str u2 =>
      rw [hurl] at h
      simp only [] at h
      split_ifs at h with h1 h2
      · injection h with h
        injection h with h
        subst h
        exact strStarts_ne_empty h1
      · injection h with h
        injection h with h
        subst h
        simp only [Bool.or_eq_true] at h2
        rcases h2 with hx | hx
        · exact strStarts_ne_empty hx
        · exact strStarts_ne_empty hx
      · cases htok : extractEmbeddedToken u2 with
        | some tok =>
          rw [htok] at h
          injection h with h
          injection h with h
          subst h
          exact extractEmbeddedToken_ne_empty htok
        | none => rw [htok] at h; cases h
    | null => rw [hurl] at h; simp only [] at h; cases h
    | boolean b => rw [hurl] at h; simp only [] at h; cases h
    | num n => rw [hurl] at h; simp only [] at h; cases h
    | arr xs => rw [hurl] at h; simp only [] at h; cases h
    | obj fs3 => rw [hurl] at h; simp only [] at h; cases h
  | null => rw [him] at h; simp only [] at h; injection h with h; cases h
  | boolean b => rw [him] at h; simp only [] at h; injection h with h; cases h
  | num n => rw [him] at h; simp only [] at h; injection h with h; cases h
  | str s2 => rw [him] at h; simp only [] at h; injection h with h; cases h
  | arr xs => rw [him] at h; simp only [] at h; injection h with h; cases h

theorem nestedUrlResult_ne_empty {fs : List (String × JValue)} {u : String}
    (h : nestedUrlResult fs = some u) : u ≠ "" := by
  unfold nestedUrlResult at h
  simp only [] at h
  cases hu2 : (if pyTruthy ((objMemberLast fs "url").getD JValue.null) then
      (objMemberLast fs "url").getD JValue.null
    else (objMemberLast fs "image_url").getD JValue.null) with
  | str u2 =>
    rw [hu2] at h
    simp only [] at h
    split_ifs at h with h1
    · injection h with h
      subst h
      exact strStarts_ne_empty h1
  | obj fs2 =>
    rw [hu2] at h
    simp only [] at h
    cases hurl : (objMemberLast fs2 "url").getD JValue.null with
    | str inner =>
      rw [hurl] at h
      simp only [] at h
      split_ifs at h with h1
      · injection h with h
        subst h
        exact strStarts_ne_empty h1
    | null => rw [hurl] at h; simp only [] at h; cases h
    | boolean b => rw [hurl] at h; simp only [] at h; cases h
    | num n => rw [hurl] at h; simp only [] at h; cases h
    | arr xs => rw [hurl] at h; simp only [] at h; cases h
    | obj fs3 => rw [hurl] at h; simp only [] at h; cases h
  | null => rw [hu2] at h; simp only [] at h; cases h
  | boolean b => rw [hu2] at h; simp only [] at h; cases h
  | num n => rw [hu2] at h; simp only [] at h; cases h
  | arr xs => rw [hu2] at h; simp only [] at h; cases h

theorem findDataOrHttpAux_ne_empty :
    ∀ (fuel : Nat) (task : FindTask) (s : String),
      findDataOrHttpAux fuel task = some s → s ≠ "" := by
  intro fuel
  induction fuel with
  | zero => intro task s h; simp [findDataOrHttpAux] at h
  | succ n ih =>
    intro task s h
    match task with
    | FindTask.one v =>
      match v with
      | JValue.null => simp [findDataOrHttpAux] at h
      | JValue.boolean b => simp [findDataOrHttpAux] at h
      | JValue.num m => simp [findDataOrHttpAux] at h
      | JValue.str t =>
        unfold findDataOrHttpAux at h
        simp only [] at h
        exact findInString_ne_empty h
      | JValue.arr xs =>
        unfold findDataOrHttpAux at h
        simp only [] at h
        exact ih (FindTask.many xs) s h
      | JValue.obj fs =>
        unfold findDataOrHttpAux at h
        simp only [] at h
        cases ht : typedItemResult fs with
        | some res =>
          rw [ht] at h
          subst h
          exact typedItemResult_ne_empty ht
        | none =>
          rw [ht] at h
          cases hn : nestedUrlResult fs with
          | some u2 =>
            rw [hn] at h
            injection h with h
            subst h
            exact nestedUrlResult_ne_empty hn
          | none =>
            rw [hn] at h
            exact ih (FindTask.many (fs.map Prod.snd)) s h
    | FindTask.many [] => simp [findDataOrHttpAux] at h
    | FindTask.many (x :: xs) =>
      unfold findDataOrHttpAux at h
      cases hf : findDataOrHttpAux n (FindTask.one x) with
      | some s0 =>
        rw [hf] at h
        simp only [] at h
        by_cases hs0 : s0 = ""
        · rw [if_pos hs0] at h
          exact ih (FindTask.many xs) s h
        · rw [if_neg hs0] at h
          injection h with h
          subst h
          exact hs0
      | none =>
        rw [hf] at h
        simp only [] at h
        exact ih (FindTask.many xs) s h

theorem bytes_to_data_url_ne_empty (data : List Nat) (mime : String) :
    bytes_to_data_url data mime ≠ "" := by
  apply ne_empty_of_data_ne_nil
  unfold bytes_to_data_url
  simp [String.data_append]

theorem fetchToDataUrl_ne_empty {fetch : String → Option HttpResp} {u r : String}
    (h : fetchToDataUrl fetch u = some r) : r ≠ "" := by
  unfold fetchToDataUrl at h
  cases hr : fetch u with
  | none => rw [hr] at h; cases h
  | some resp =>
    rw [hr] at h
    injection h with h
    subst h
    exact bytes_to_data_url_ne_empty _ _

theorem resolveCandidate_ne_empty {fetch : String → Option HttpResp} {cand r : String}
    (hc : cand ≠ "") (h : resolveCandidate fetch cand = some r) : r ≠ "" := by
  unfold resolveCandidate at h
  split_ifs at h with h1
  · exact fetchToDataUrl_ne_empty h
  · injection h with h
    subst h
    exact hc

theorem resolveDeep_ne_empty {fetch : String → Option HttpResp} {fuel : Nat} {v : JValue}
    {r : String}
    (h : resolveDeep fetch (findDataOrHttpImageInObj fuel v) = some r) : r ≠ "" := by
  unfold resolveDeep at h
  cases hd : findDataOrHttpImageInObj fuel v with
  | none => rw [hd] at h; cases h
  | some d =>
    rw [hd] at h
    simp only [] at h
    exact resolveCandidate_ne_empty (findDataOrHttpAux_ne_empty fuel (FindTask.one v) d hd) h

theorem imagesArrayStep_ne_empty {fetch : String → Option HttpResp} {images : JValue}
    {u : String} (h : imagesArrayStep fetch images = Except.ok (some u)) : u ≠ "" := by
  unfold imagesArrayStep at h
  cases images with
  | arr xs =>
    cases xs with
    | nil => simp at h
    | cons first rest =>
      simp only [] at h
      cases first with
      | obj ffs =>
        simp only [] at h
        cases him : (objMemberLast ffs "image_url").getD (JValue.obj []) with
        | obj fs2 =>
          rw [him] at h
          simp only [] at h
          cases hurl : (objMemberLast fs2 "url").getD JValue.null with
          | str u0 =>
            rw [hurl] at h
            simp only [] at h
            by_cases h1 : strStarts u0 "data:".data = true
            · rw [if_pos h1] at h
              injection h with h
              injection h with h
              subst h
              exact strStarts_ne_empty h1
            · rw [if_neg h1] at h
              by_cases h2 : isHttpUrl u0 = true
              · rw [if_pos h2] at h
                cases hfet : fetchToDataUrl fetch u0 with
                | some du =>
                  rw [hfet] at h
                  simp only [] at h
                  injection h with h
                  injection h with h
                  subst h
                  exact fetchToDataUrl_ne_empty hfet
                | none =>
                  rw [hfet] at h
                  simp only [] at h
                  by_cases h3 : containsSub dataImageToken u0.data = true
                  · rw [if_pos h3] at h
                    cases h
                  · rw [if_neg h3] at h
                    simp at h
              · rw [if_neg h2] at h
                simp only [] at h
                by_cases h3 : containsSub dataImageToken u0.data = true
                · rw [if_pos h3] at h
                  cases h
                · rw [if_neg h3] at h
                  simp at h
          | null => rw [hurl] at h; simp at h
          | boolean b => rw [hurl] at h; simp at h
          | num n => rw [hurl] at h; simp at h
          | arr ys => rw [hurl] at h; simp at h
          | obj fs3 => rw [hurl] at h; simp at h
        | null => rw [him] at h; simp at h
        | boolean b => rw [him] at h; simp at h
        | num n => rw [him] at h; simp at h
        | str s2 => rw [him] at h; simp at h
        | arr ys => rw [him] at h; simp at h
      | null => simp at h
      | boolean b => simp at h
      | num n => simp at h
      | str s2 => simp at h
      | arr ys => simp at h
  | null => simp at h
  | boolean b => simp at h
  | num n => simp at h
  | str s => simp at h
  | obj fs => simp at h

theorem pySubZero_error_not_runtime {v : JValue} {e : PyErr}
    (h : pySubZero v = Except.error e) : ∀ m, e ≠ PyErr.runtimeError m := by
  intro m
  cases v with
  | arr xs =>
    cases xs with
    | nil =>
      simp only [pySubZero, Except.error.injEq] at h
      subst h
      simp
    | cons a l => simp [pySubZero] at h
  | str s =>
    unfold pySubZero at h
    simp only [] at h
    cases hd : s.data with
    | nil =>
      rw [hd] at h
      simp only [Except.error.injEq] at h
      subst h
      simp
    | cons c l =>
      rw [hd] at h
      simp at h
  | obj fs =>
    simp only [pySubZero, Except.error.injEq] at h
    subst h
    simp
  | null =>
    simp only [pySubZero, Except.error.injEq] at h
    subst h
    simp
  | boolean b =>
    simp only [pySubZero, Except.error.injEq] at h
    subst h
    simp
  | num n =>
    simp only [pySubZero, Except.error.injEq] at h
    subst h
    simp

theorem pyDictGet_error_not_runtime {v : JValue} {k : String} {d : JValue} {e : PyErr}
    (h : pyDictGet v k d = Except.error e) : ∀ m, e ≠ PyErr.runtimeError m := by
  intro m
  cases v with
  | obj fs => simp [pyDictGet] at h
  | null => simp only [pyDictGet, Except.error.injEq] at h; subst h; simp
  | boolean b => simp only [pyDictGet, Except.error.injEq] at h; subst h; simp
  | num n => simp only [pyDictGet, Except.error.injEq] at h; subst h; simp
  | str s => simp only [pyDictGet, Except.error.injEq] at h; subst h; simp
  | arr xs => simp only [pyDictGet, Except.error.injEq] at h; subst h; simp

theorem imagesArrayStep_error_not_runtime {fetch : String → Option HttpResp}
    {images : JValue} {e : PyErr}
    (h : imagesArrayStep fetch images = Except.error e) : ∀ m, e ≠ PyErr.runtimeError m := by
  intro m
  unfold imagesArrayStep at h
  cases images with
  | arr xs =>
    cases xs with
    | nil => simp at h
    | cons first rest =>
      simp only [] at h
      cases first with
      | obj ffs =>
        simp only [] at h
        cases him : (objMemberLast ffs "image_url").getD (JValue.obj []) with
        | obj fs2 =>
          rw [him] at h
          simp only [] at h
          cases hurl : (objMemberLast fs2 "url").getD JValue.null with
          | str u0 =>
            rw [hurl] at h
            simp only [] at h
            by_cases h1 : strStarts u0 "data:".data = true
            · rw [if_pos h1] at h
              cases h
            · rw [if_neg h1] at h
              by_cases h2 : isHttpUrl u0 = true
              · rw [if_pos h2] at h
                cases hfet : fetchToDataUrl fetch u0 with
                | some du => rw [hfet] at h; simp at h
                | none =>
                  rw [hfet] at h
                  simp only [] at h
                  by_cases h3 : containsSub dataImageToken u0.data = true
                  · rw [if_pos h3] at h
                    simp only [Except.error.injEq] at h
                    subst h
                    simp
                  · rw [if_neg h3] at h
                    cases h
              · rw [if_neg h2] at h
                simp only [] at h
                by_cases h3 : containsSub dataImageToken u0.data = true
                · rw [if_pos h3] at h
                  simp only [Except.error.injEq] at h
                  subst h
                  simp
                · rw [if_neg h3] at h
                  cases h
          | null => rw [hurl] at h; simp at h
          | boolean b => rw [hurl] at h; simp at h
          | num n => rw [hurl] at h; simp at h
          | arr ys => rw [hurl] at h; simp at h
          | obj fs3 => rw [hurl] at h; simp at h
        | null =>
          rw [him] at h
          simp only [Except.error.injEq] at h
          subst h
          simp
        | boolean b =>
          rw [him] at h
          simp only [Except.error.injEq] at h
          subst h
          simp
        | num n =>
          rw [him] at h
          simp only [Except.error.injEq] at h
          subst h
          simp
        | str s2 =>
          rw [him] at h
          simp only [Except.error.injEq] at h
          subst h
          simp
        | arr ys =>
          rw [him] at h
          simp only [Except.error.injEq] at h
          subst h
          simp
      | null => simp at h
      | boolean b => simp at h
      | num n => simp at h
      | str s2 => simp at h
      | arr ys => simp at h
  | null => simp at h
  | boolean b => simp at h
  | num n => simp at h
  | str s => simp at h
  | obj fs => simp at h

theorem extract_ok_some_ne_empty {fuel : Nat} {fetch : String → Option HttpResp}
    {resp : JValue} {u : String}
    (h : extract_image_data_url_from_response fuel fetch resp = Except.ok (some u)) :
    u ≠ "" := by
  unfold extract_image_data_url_from_response at h
  cases resp with
  | obj fs =>
    simp only [] at h
    by_cases hch : (!pyTruthy ((objMemberLast fs "choices").getD (JValue.arr []))) = true
    · rw [if_pos hch] at h
      simp at h
    · rw [if_neg hch] at h
      cases hz : pySubZero ((objMemberLast fs "choices").getD (JValue.arr [])) with
      | error e0 => rw [hz] at h; simp at h
      | ok choice0 =>
        rw [hz] at h
        simp only [] at h
        cases hm : pyDictGet choice0 "message" (JValue.obj []) with
        | error e0 => rw [hm] at h; simp at h
        | ok msg =>
          rw [hm] at h
          simp only [] at h
          cases hi : pyDictGet msg "images" JValue.null with
          | error e0 => rw [hi] at h; simp at h
          | ok images =>
            rw [hi] at h
            simp only [] at h
            cases hs : imagesArrayStep fetch images with
            | error e0 => rw [hs] at h; simp at h
            | ok ou =>
              cases ou with
              | some w =>
                rw [hs] at h
                simp only [Except.ok.injEq, Option.some.injEq] at h
                subst h
                exact imagesArrayStep_ne_empty hs
              | none =>
                rw [hs] at h
                simp only [] at h
                cases hc : pyDictGet msg "content" JValue.null with
                | error e0 => rw [hc] at h; simp at h
                | ok content =>
                  rw [hc] at h
                  simp only [] at h
                  cases hf : findDataOrHttpImageInObj fuel content with
                  | some cand =>
                    rw [hf] at h
                    simp only [] at h
                    by_cases hce : cand = ""
                    · rw [if_pos hce] at h
                      simp only [Except.ok.injEq] at h
                      exact resolveDeep_ne_empty h
                    · rw [if_neg hce] at h
                      simp only [Except.ok.injEq] at h
                      exact resolveCandidate_ne_empty hce h
                  | none =>
                    rw [hf] at h
                    simp only [Except.ok.injEq] at h
                    exact resolveDeep_ne_empty h
  | null => simp at h
  | boolean b => simp at h
  | num n => simp at h
  | str s => simp at h
  | arr xs => simp at h

theorem extract_error_not_runtime {fuel : Nat} {fetch : String → Option HttpResp}
    {resp : JValue} {e : PyErr}
    (h : extract_image_data_url_from_response fuel fetch resp = Except.error e) :
    ∀ m, e ≠ PyErr.runtimeError m := by
  intro m
  unfold extract_image_data_url_from_response at h
  cases resp with
  | obj fs =>
    simp only [] at h
    by_cases hch : (!pyTruthy ((objMemberLast fs "choices").getD (JValue.arr []))) = true
    · rw [if_pos hch] at h
      cases h
    · rw [if_neg hch] at h
      cases hz : pySubZero ((objMemberLast fs "choices").getD (JValue.arr [])) with
      | error e0 =>
        rw [hz] at h
        simp only [Except.error.injEq] at h
        subst h
        exact pySubZero_error_not_runtime hz m
      | ok choice0 =>
        rw [hz] at h
        simp only [] at h
        cases hm : pyDictGet choice0 "message" (JValue.obj []) with
        | error e0 =>
          rw [hm] at h
          simp only [Except.error.injEq] at h
          subst h
          exact pyDictGet_error_not_runtime hm m
        | ok msg =>
          rw [hm] at h
          simp only [] at h
          cases hi : pyDictGet msg "images" JValue.null with
          | error e0 =>
            rw [hi] at h
            simp only [Except.error.injEq] at h
            subst h
            exact pyDictGet_error_not_runtime hi m
          | ok images =>
            rw [hi] at h
            simp only [] at h
            cases hs : imagesArrayStep fetch images with
            | error e0 =>
              rw [hs] at h
              simp only [Except.error.injEq] at h
              subst h
              exact imagesArrayStep_error_not_runtime hs m
            | ok ou =>
              cases ou with
              | some w => rw [hs] at h; simp at h
              | none =>
                rw [hs] at h
                simp only [] at h
                cases hc : pyDictGet msg "content" JValue.null with
                | error e0 =>
                  rw [hc] at h
                  simp only [Except.error.injEq] at h
                  subst h
                  exact pyDictGet_error_not_runtime hc m
                | ok content =>
                  rw [hc] at h
                  simp only [] at h
                  cases hf : findDataOrHttpImageInObj fuel content with
                  | some cand =>
                    rw [hf] at h
                    simp only [] at h
                    by_cases hce : cand = ""
                    · rw [if_pos hce] at h
                      cases h
                    · rw [if_neg hce] at h
                      cases h
                  | none =>
                    rw [hf] at h
                    cases h
  | null => simp at h
  | boolean b => simp at h
  | num n => simp at h
  | str s => simp at h
  | arr xs => simp at h

/-- C7: provided the transport stage produced a response and logging is
inert, `generate_image` raises `RuntimeError("No image returned by
provider")` exactly when payload extraction finds no image in that
response, and whenever extraction finds an image the extracted data URL is
returned unchanged — never a substitute. (The guard is Python's `if not
data_url:`; the accompanying lemmas show extraction can never produce the
empty string, so falsiness coincides with no-image.) -/
theorem generate_image_error_iff_no_image
    (tclient thttp : Nat → Except PyErr JValue) (fetch : String → Option HttpResp)
    (on_log : Option (String → Except PyErr Unit)) (fuel : Nat) (resp : JValue)
    (hlog : ∀ s, runLog on_log s = Except.ok ())
    (hresp : acquireImageResponse tclient thttp on_log = Except.ok resp) :
    (generate_image tclient thttp fetch on_log fuel =
        Except.error (PyErr.runtimeError "No image returned by provider") ↔
      extract_image_data_url_from_response fuel fetch resp = Except.ok none) ∧
    (∀ u, extract_image_data_url_from_response fuel fetch resp = Except.ok (some u) →
      generate_image tclient thttp fetch on_log fuel = Except.ok u) := by
  have hgen : generate_image tclient thttp fetch on_log fuel =
      (match extract_image_data_url_from_response fuel fetch resp with
       | Except.error e => Except.error e
       | Except.ok none =>
         Except.error (PyErr.runtimeError "No image returned by provider")
       | Except.ok (some d) =>
         if d = "" then Except.error (PyErr.runtimeError "No image returned by provider")
         else Except.ok d) := by
    unfold generate_image
    rw [hlog]
    simp only []
    rw [hresp]
  constructor
  · constructor
    · intro hErr
      rw [hgen] at hErr
      cases hx : extract_image_data_url_from_response fuel fetch resp with
      | error e0 =>
        rw [hx] at hErr
        simp only [Except.error.injEq] at hErr
        exact absurd hErr (extract_error_not_runtime hx _)
      | ok ou =>
        cases ou with
        | none => rfl
        | some d =>
          rw [hx] at hErr
          simp only [] at hErr
          by_cases hd : d = ""
          · exact absurd hd (extract_ok_some_ne_empty hx)
          · rw [if_neg hd] at hErr
            cases hErr
    · intro hx
      rw [hgen, hx]
  · intro u hx
    rw [hgen, hx]
    simp only []
    rw [if_neg (extract_ok_some_ne_empty hx)]

/-- Witness for the no-image iff at a concrete inline-image response. -/
theorem generate_image_error_iff_no_image_witness :
    (generate_image
        (fun _ => Except.ok (JValue.obj [("choices", JValue.arr [JValue.obj [("message",
          JValue.obj [("content", JValue.str "data:image/png;base64,AA")])]])]))
        (fun _ => Except.ok (JValue.obj [("choices", JValue.arr [JValue.obj [("message",
          JValue.obj [("content", JValue.str "data:image/png;base64,AA")])]])]))
        (fun _ => none) none 6 =
        Except.error (PyErr.runtimeError "No image returned by provider") ↔
      extract_image_data_url_from_response 6 (fun _ => none)
        (JValue.obj [("choices", JValue.arr [JValue.obj [("message",
          JValue.obj [("content", JValue.str "data:image/png;base64,AA")])]])]) =
        Except.ok none) :=
  (generate_image_error_iff_no_image
    (fun _ => Except.ok (JValue.obj [("choices", JValue.arr [JValue.obj [("message",
      JValue.obj [("content", JValue.str "data:image/png;base64,AA")])]])]))
    (fun _ => Except.ok (JValue.obj [("choices", JValue.arr [JValue.obj [("message",
      JValue.obj [("content", JValue.str "data:image/png;base64,AA")])]])]))
    (fun _ => none) none 6
    (JValue.obj [("choices", JValue.arr [JValue.obj [("message",
      JValue.obj [("content", JValue.str "data:image/png;base64,AA")])]])])
    (fun _ => rfl) rfl).1
